import Mathlib

/-!
Verification development for the `restumize` REST toolkit
(`restumize/fields.py`, `restumize/handler.py`, `restumize/api.py`,
`restumize/exceptions.py`).

The Python sources are shallowly embedded: request-level values become the
inductive `Val`, fields become the `Field` structure with a `kind` tag that
selects the overridden `to_python`/`validate` method, dictionaries become
association lists, exceptions become `Except`, and the `_dispatch` pipeline
is a function that also returns the trace of pipeline stages it entered.

`restumize/serializers.py`, `restumize/http.py`, `restumize/throttle.py` and
`restumize/utils/validate_jsonp.py` are referenced by the sources but are not
part of the source tree available here; the few facts needed about them
(status codes of the response classes, the format-to-MIME map of the
serializer, the safe-identifier callback check) are modelled from the spec
and marked as such in their doc comments.
-/

namespace Restumize

/-- A Python value as it flows through request dictionaries and field
cleaning: `None`, a (unicode) string, an integer, or a boolean. -/
inductive Val
  | none
  | str (s : String)
  | int (n : Int)
  | bool (b : Bool)
  deriving DecidableEq, Repr

/-- Python `==` on the values above: `True == 1` and `False == 0`,
otherwise equality within a type. -/
def pyEq : Val → Val → Bool
  | Val.none, Val.none => true
  | Val.str a, Val.str b => a = b
  | Val.int a, Val.int b => a = b
  | Val.bool a, Val.bool b => a = b
  | Val.bool a, Val.int b => (if a then (1 : Int) else 0) = b
  | Val.int a, Val.bool b => a = (if b then (1 : Int) else 0)
  | _, _ => false

/-- Python `value in tuple`, which tests with `==`. -/
def pyMem (v : Val) (l : List Val) : Bool :=
  l.any (fun w => pyEq v w)

/-- `django.core.validators.EMPTY_VALUES = (None, '', [], (), {})`,
restricted to the value forms of `Val`. -/
def EMPTY_VALUES : List Val := [Val.none, Val.str ""]

/-- `value in validators.EMPTY_VALUES`. -/
def Val.isEmpty (v : Val) : Bool := pyMem v EMPTY_VALUES

/-- Python truthiness `bool(value)`. -/
def truthy : Val → Bool
  | Val.none => false
  | Val.str s => s ≠ ""
  | Val.int n => n ≠ 0
  | Val.bool b => b

/-- Python `str(value)` / `smart_unicode(value)` on the embedded values. -/
def pyStr : Val → String
  | Val.none => "None"
  | Val.str s => s
  | Val.int n => toString n
  | Val.bool b => if b then "True" else "False"

/-- Python `str.lower()` (ASCII, as used on method names and the
boolean-field strings). -/
def pyLower (s : String) : String := String.mk (s.data.map Char.toLower)

/-- Python `str.upper()` (ASCII, as used on method names). -/
def pyUpper (s : String) : String := String.mk (s.data.map Char.toUpper)

/-- Decimal digit run to a number, `none` unless non-empty and all
digits. -/
def digitsVal (l : List Char) : Option Nat :=
  if l ≠ [] ∧ l.all Char.isDigit then
    some (l.foldl (fun a c => a * 10 + (c.toNat - 48)) 0)
  else Option.none

/-- Python `int(·)` on a string: an optional sign followed by decimal
digits. -/
def pyParseInt (s : String) : Option Int :=
  match s.data with
  | [] => Option.none
  | c :: ds =>
      if c = '-' then (digitsVal ds).map (fun n => -(n : Int))
      else if c = '+' then (digitsVal ds).map (fun n => (n : Int))
      else (digitsVal (c :: ds)).map (fun n => (n : Int))

/-- A validator from `django.core.validators`: returns the error messages it
raises on a value, or `none` when the value passes. -/
def Validator : Type := Val → Option (List String)

/-- The concrete `fields.py` classes modelled here. -/
inductive FieldKind
  | base
  | char
  | integer
  | boolean
  | nullBoolean
  deriving DecidableEq, Repr

/-- `fields.py`: the run-time state of a field object.  `kind` records the
concrete class, which selects the overridden `to_python`/`validate` method;
`requiredMsg`/`invalidMsg` are the resolved `error_messages` entries. -/
structure Field where
  kind : FieldKind
  default : Val
  required : Bool
  validators : List Validator
  requiredMsg : String
  invalidMsg : String

/-- `BaseField.__init__(default=None, required=True, ..., validators=[])`:
`self.validators = self.default_validators + validators` with
`default_validators = []` on the classes modelled here. -/
def BaseField_init (kind : FieldKind) (default : Val) (required : Bool)
    (validators : List Validator) (requiredMsg invalidMsg : String) : Field :=
  { kind := kind, default := default, required := required,
    validators := validators, requiredMsg := requiredMsg,
    invalidMsg := invalidMsg }

/-- `validators.MinLengthValidator(m)`: rejects values whose string length is
below `m` (run on the already-coerced unicode value). -/
def MinLengthValidator (m : Nat) : Validator := fun v =>
  if (pyStr v).length < m then
    some ["Ensure this value has at least " ++ toString m ++ " characters."]
  else Option.none

/-- `validators.MaxLengthValidator(m)`. -/
def MaxLengthValidator (m : Nat) : Validator := fun v =>
  if (pyStr v).length > m then
    some ["Ensure this value has at most " ++ toString m ++ " characters."]
  else Option.none

/-- `validators.MinValueValidator(m)` (only integer values can fail it in
this embedding, matching its use on `IntegerField`-cleaned values). -/
def MinValueValidator (m : Int) : Validator := fun v =>
  match v with
  | Val.int n =>
      if n < m then
        some ["Ensure this value is greater than or equal to " ++ toString m ++ "."]
      else Option.none
  | _ => Option.none

/-- `validators.MaxValueValidator(m)`. -/
def MaxValueValidator (m : Int) : Validator := fun v =>
  match v with
  | Val.int n =>
      if n > m then
        some ["Ensure this value is less than or equal to " ++ toString m ++ "."]
      else Option.none
  | _ => Option.none

/-- `CharField.__init__(max_length=None, min_length=None, ...)`: appends the
length validators, then replaces a `None` default by the empty unicode
string. -/
def CharField_init (maxLength minLength : Option Nat) (default : Val)
    (required : Bool) (validators : List Validator) : Field :=
  let f := BaseField_init FieldKind.char default required validators
    "This field is required." "Enter a valid value."
  let f := match minLength with
    | some m => { f with validators := f.validators ++ [MinLengthValidator m] }
    | Option.none => f
  let f := match maxLength with
    | some m => { f with validators := f.validators ++ [MaxLengthValidator m] }
    | Option.none => f
  if f.default = Val.none then { f with default := Val.str "" } else f

/-- `IntegerField.__init__(max_value=None, min_value=None, ...)`; its
`default_error_messages['invalid']` is `'Enter a whole number.'`. -/
def IntegerField_init (maxValue minValue : Option Int) (default : Val)
    (required : Bool) (validators : List Validator) : Field :=
  let f := BaseField_init FieldKind.integer default required validators
    "This field is required." "Enter a whole number."
  let f := match maxValue with
    | some m => { f with validators := f.validators ++ [MaxValueValidator m] }
    | Option.none => f
  match minValue with
  | some m => { f with validators := f.validators ++ [MinValueValidator m] }
  | Option.none => f

/-- `BooleanField(...)`: no `__init__` override. -/
def BooleanField_init (default : Val) (required : Bool)
    (validators : List Validator) : Field :=
  BaseField_init FieldKind.boolean default required validators
    "This field is required." "Enter a valid value."

/-- `NullBooleanField(...)`: no `__init__` override. -/
def NullBooleanField_init (default : Val) (required : Bool)
    (validators : List Validator) : Field :=
  BaseField_init FieldKind.nullBoolean default required validators
    "This field is required." "Enter a valid value."

/-- `CharField.to_python`: empty values give the default, everything else is
coerced with `smart_unicode`. -/
def charToPython (f : Field) (v : Val) : Val :=
  if v.isEmpty then f.default else Val.str (pyStr v)

/-- Python `int(str(value))` on an embedded value. -/
def pyIntOfStr (v : Val) : Option Int := pyParseInt (pyStr v)

/-- `IntegerField.to_python`: empty values give the default (uncoerced);
otherwise `int(str(value))`, raising the `invalid` message on failure. -/
def integerToPython (f : Field) (v : Val) : Except (List String) Val :=
  if v.isEmpty then Except.ok f.default
  else
    match pyIntOfStr v with
    | some n => Except.ok (Val.int n)
    | Option.none => Except.error [f.invalidMsg]

/-- `BooleanField.to_python`: the strings `'false'`/`'0'` (case-insensitive)
map to `False`, anything else to its truthiness; then a required field
raises the `required` message whenever the coerced value is falsy. -/
def booleanToPython (f : Field) (v : Val) : Except (List String) Val :=
  let value :=
    match v with
    | Val.str s =>
        if pyLower s = "false" ∨ pyLower s = "0" then Val.bool false
        else Val.bool (truthy (Val.str s))
    | w => Val.bool (truthy w)
  if truthy value = false ∧ f.required then Except.error [f.requiredMsg]
  else Except.ok value

/-- `NullBooleanField.to_python`: membership tests use Python `==`, so `1`
counts as `True` and `0` as `False`; anything unrecognised gives the
default. -/
def nullBooleanToPython (f : Field) (v : Val) : Val :=
  if pyMem v [Val.bool true, Val.str "True", Val.str "1"] then Val.bool true
  else if pyMem v [Val.bool false, Val.str "False", Val.str "0"] then Val.bool false
  else f.default

/-- Method resolution for `to_python`; raised `ValidationError`s are the
`Except.error` case. -/
def to_python (f : Field) (v : Val) : Except (List String) Val :=
  match f.kind with
  | FieldKind.base => Except.ok v
  | FieldKind.char => Except.ok (charToPython f v)
  | FieldKind.integer => integerToPython f v
  | FieldKind.boolean => booleanToPython f v
  | FieldKind.nullBoolean => Except.ok (nullBooleanToPython f v)

/-- `BaseField.validate`: an empty value on a required field raises the
`required` message.  `NullBooleanField.validate` overrides this with a
no-op. -/
def validate (f : Field) (v : Val) : Except (List String) Unit :=
  match f.kind with
  | FieldKind.nullBoolean => Except.ok ()
  | _ =>
      if v.isEmpty ∧ f.required then Except.error [f.requiredMsg]
      else Except.ok ()

/-- `BaseField.run_validators`: skipped on empty values; otherwise every
validator runs and all collected messages are raised together. -/
def run_validators (f : Field) (v : Val) : Except (List String) Unit :=
  if v.isEmpty then Except.ok ()
  else
    let errors := f.validators.foldl (fun acc vd => acc ++ ((vd v).getD [])) []
    if errors = [] then Except.ok () else Except.error errors

/-- `BaseField.clean(value)`: `to_python` then `validate` then
`run_validators`, returning the coerced value. -/
def clean (f : Field) (v : Val) : Except (List String) Val := do
  let value ← to_python f v
  validate f value
  run_validators f value
  return value

/-! ## Dictionaries

Python dictionaries become association lists; assignment overwrites in
place, keeping the first-insertion position, and `del` removes the key. -/

/-- `d[k] = v` on an association list. -/
def dinsert {β : Type} (m : List (String × β)) (k : String) (v : β) :
    List (String × β) :=
  if (m.lookup k).isSome then
    m.map (fun p => if p.1 = k then (k, v) else p)
  else m ++ [(k, v)]

/-- `del d[k]` on an association list. -/
def dremove {β : Type} (m : List (String × β)) (k : String) :
    List (String × β) :=
  m.filter (fun p => p.1 ≠ k)

/-- `d.get(k, default)`. -/
def dget {β : Type} (m : List (String × β)) (k : String) (dfl : β) : β :=
  (m.lookup k).getD dfl

/-! ## Handler cleaning (`handler.py`, `BaseHandler`) -/

/-- A `clean_<name>` hook defined on a handler subclass: it reads the
cleaned data accumulated so far and returns a replacement value, or raises
a `ValidationError`. -/
def CleanHook : Type := List (String × Val) → Except (List String) Val

/-- The per-request state of a `BaseHandler` instance relevant to cleaning:
its (deep-copied) field map, the `clean_<name>` hooks of the subclass, and
the three request dictionaries passed to `__init__`. -/
structure Handler where
  fields : List (String × Field)
  hooks : List (String × CleanHook)
  get_data : List (String × Val)
  post_data : List (String × Val)
  files : List (String × Val)

/-- `BaseHandler._get_raw_value`: `get_data.get(name)` (default `None`),
overridden by `post_data`, overridden by `files`. -/
def _get_raw_value (h : Handler) (name : String) : Val :=
  let value := dget h.get_data name Val.none
  let value := dget h.post_data name value
  dget h.files name value

/-- The mutable attributes `_cleaned_data` and `_errors` during
`_clean_fields`. -/
structure CleanState where
  cleanedData : List (String × Val)
  errors : List (String × List String)

/-- One iteration of the `_clean_fields` loop for field `name`:
`field.clean` result stored into `_cleaned_data`, then the optional
`clean_<name>` hook; a raised `ValidationError` lands in `_errors` and
evicts the name from `_cleaned_data`. -/
def cleanFieldStep (h : Handler) (st : CleanState) (name : String)
    (field : Field) : CleanState :=
  let value := _get_raw_value h name
  match clean field value with
  | Except.error e =>
      { cleanedData := dremove st.cleanedData name,
        errors := dinsert st.errors name e }
  | Except.ok v =>
      let st1 : CleanState :=
        { st with cleanedData := dinsert st.cleanedData name v }
      match h.hooks.lookup name with
      | Option.none => st1
      | some hook =>
          match hook st1.cleanedData with
          | Except.ok v2 =>
              { st1 with cleanedData := dinsert st1.cleanedData name v2 }
          | Except.error e =>
              { cleanedData := dremove st1.cleanedData name,
                errors := dinsert st1.errors name e }

/-- `BaseHandler._clean_fields`, starting from the empty `_cleaned_data`
and `_errors` set up by `_full_clean`. -/
def _clean_fields (h : Handler) : CleanState :=
  h.fields.foldl (fun st p => cleanFieldStep h st p.1 p.2)
    { cleanedData := [], errors := [] }

/-- The result of `_full_clean` on a handler instance: `cleanedData` is
`none` when the `_cleaned_data` attribute was deleted, `attrs` are the
instance attributes written by `_replace_fields`. -/
structure FullCleanResult where
  cleanedData : Option (List (String × Val))
  errors : List (String × List String)
  attrs : List (String × Val)

/-- `BaseHandler._full_clean`: clean every field, then `_replace_fields`
(sets an instance attribute per cleaned entry), then deletes
`_cleaned_data` whenever `_errors` is non-empty. -/
def _full_clean (h : Handler) : FullCleanResult :=
  let st := _clean_fields h
  let attrs := st.cleanedData
  { cleanedData := if st.errors = [] then some st.cleanedData else Option.none,
    errors := st.errors,
    attrs := attrs }

/-- `BaseHandler._is_valid`: run `_full_clean` and report whether
`_errors` stayed empty. -/
def _is_valid (h : Handler) : Bool :=
  decide ((_full_clean h).errors = [])

/-! ## HTTP responses and exceptions -/

/-- A Django `HttpResponse`: status code, body, headers. -/
structure Resp where
  status : Nat
  content : String
  headers : List (String × String)
  deriving DecidableEq, Repr

/-- `response[k] = v`. -/
def setHeader (r : Resp) (k v : String) : Resp :=
  { r with headers := dinsert r.headers k v }

/-- `django.http.HttpResponse(content)`: status 200, no headers. -/
def HttpResponse (content : String) : Resp :=
  { status := 200, content := content, headers := [] }

/-- Modelled from the spec: `restumize/http.py` is not in the source tree;
the spec's response-code table gives 400 for bad request, and the class is
a Django `HttpResponse` subclass whose body is the `content` argument
(empty when called with no arguments). -/
def HttpBadRequest (content : String) : Resp :=
  { status := 400, content := content, headers := [] }

/-- Modelled from the spec: `restumize/http.py` absent; 401 for
unauthenticated/unauthorized. -/
def HttpUnauthorized : Resp :=
  { status := 401, content := "", headers := [] }

/-- Modelled from the spec: `restumize/http.py` absent; 405 for method not
allowed, body taken from the `content` argument. -/
def HttpMethodNotAllowed (content : String) : Resp :=
  { status := 405, content := content, headers := [] }

/-- Modelled from the spec: `restumize/http.py` absent; 429 for throttled. -/
def HttpTooManyRequests : Resp :=
  { status := 429, content := "", headers := [] }

/-- Modelled from the spec: `restumize/http.py` absent; 204 for
success-with-no-content. -/
def HttpNoContent : Resp :=
  { status := 204, content := "", headers := [] }

/-- The Python exceptions that can cross `_dispatch`:
`ImmediateHttpResponse` (which carries a response and is the only one with
a `response` attribute), `BadRequest`, and the interpreter-level
`NameError`/`TypeError`. -/
inductive PyExc
  | immediate (r : Resp)
  | badRequest (msg : String)
  | nameError (name : String)
  | typeError (msg : String)
  deriving DecidableEq, Repr

/-! ## Serializer and format negotiation -/

/-- Modelled from the spec: `restumize/serializers.py` is not in the source
tree.  Per the spec, a serializer has a set of supported format names, maps
each format name to exactly one MIME type, and converts native structures
to bytes; `serializeFn` is kept abstract (its last argument is the
`options` dictionary, carrying the JSONP callback name when present). -/
structure Serializer where
  formats : List String
  content_types : List (String × String)
  serializeFn : Val → String → List (String × String) → String

/-- Modelled from the spec: `Serializer.get_mime_for_format` returns the
MIME type registered for a format name, with the JSON MIME type as the
fallback for unregistered names ("at minimum a JSON representation"). -/
def get_mime_for_format (s : Serializer) (format : String) : String :=
  dget s.content_types format "application/json"

/-- Modelled from the spec: `Serializer.supported_formats` lists the MIME
types of the supported formats, in format order. -/
def supported_formats (s : Serializer) : List String :=
  s.formats.map (get_mime_for_format s)

/-- The parts of a Django request that the embedded code reads:
the HTTP method, the `GET` query dictionary, and the `Accept` header
(`None` when the header is absent). -/
structure Request where
  method : String
  getParams : List (String × String)
  httpAccept : Option String

/-- Whether `needle` is a leading segment of `hay`. -/
def charListLeads : List Char → List Char → Bool
  | [], _ => true
  | _ :: _, [] => false
  | c :: cs, d :: ds => c = d && charListLeads cs ds

/-- Whether `needle` occurs contiguously inside `hay`. -/
def charListInside (needle : List Char) : List Char → Bool
  | [] => charListLeads needle []
  | d :: ds => charListLeads needle (d :: ds) || charListInside needle ds

/-- Python `needle in haystack` on strings (substring containment). -/
def pyIn (needle haystack : String) : Bool :=
  charListInside needle.toList haystack.toList

/-- `handler.py determine_format(request, serializer, default_format)`.
`bm` stands for the external `mimeparse.best_match`, which returns the
best-matching MIME type or the empty string; the source reverses the
supported-format list before calling it. -/
def determine_format (bm : List String → String → String) (req : Request)
    (s : Serializer) (default_format : String) : String :=
  let fmt := dget req.getParams "format" ""
  if fmt ≠ "" ∧ fmt ∈ s.formats then get_mime_for_format s fmt
  else if (req.getParams.lookup "callback").isSome then
    get_mime_for_format s "jsonp"
  else
    let accept := req.httpAccept.getD "*/*"
    if accept ≠ "*/*" then
      let best_format := bm (supported_formats s).reverse accept
      if best_format ≠ "" then best_format else default_format
    else default_format

/-- `handler.py build_content_type(format, encoding='utf-8')`. -/
def build_content_type (format : String) : String :=
  if pyIn "charset" format then format
  else format ++ "; charset=utf-8"

/-- Modelled from the spec: `restumize/utils/validate_jsonp.py` is not in
the source tree; per the spec the JSONP callback name is validated against
a safe-identifier pattern. -/
def is_valid_jsonp_callback_value (s : String) : Bool :=
  match s.toList with
  | [] => false
  | c :: cs =>
      (c.isAlpha ∨ c = '_' ∨ c = '$') ∧
        cs.all (fun d => d.isAlphanum ∨ d = '_' ∨ d = '$' ∨ d = '.')

/-- The names bound at module level in `handler.py` (its imports and its
module-level definitions); Python resolves a global reference inside a
method against exactly these (plus builtins). -/
def handlerModuleGlobals : List String :=
  ["copy", "datetime", "logging", "mimeparse", "django", "settings",
   "patterns", "url", "ObjectDoesNotExist", "MultipleObjectsReturned",
   "ValidationError", "ErrorDict", "ErrorList", "HttpResponse",
   "HttpResponseNotFound", "Http404", "SortedDict", "csrf_exempt",
   "BaseField", "FileField", "Serializer", "Authentication",
   "ReadOnlyAuthorization", "NoCache", "BaseThrottle", "NotFound",
   "BadRequest", "ImmediateHttpResponse", "http",
   "get_declared_fields", "ResourceOptions", "DeclarativeFieldsMetaclass",
   "BaseHandler", "convert_post_to_VERB", "convert_post_to_put",
   "convert_post_to_patch", "determine_format", "build_content_type"]

/-! ## The dispatch pipeline (`handler.py`, `BaseHandler._dispatch`) -/

/-- What `Authentication.is_authenticated` / `Authorization.is_authorized`
can return: `True`, an `HttpResponse`, or anything else (`False`, `None`,
...) — the dispatch code only distinguishes these three cases. -/
inductive AuthResult
  | isTrue
  | isResp (r : Resp)
  | notTrue

/-- The shared pattern of `_is_authenticated` and `_is_authorized`: a
returned `HttpResponse` is raised as-is inside an `ImmediateHttpResponse`,
anything that `is not True` raises `ImmediateHttpResponse(HttpUnauthorized())`. -/
def hookCheck : AuthResult → Except PyExc Unit
  | AuthResult.isResp r => Except.error (PyExc.immediate r)
  | AuthResult.notTrue => Except.error (PyExc.immediate HttpUnauthorized)
  | AuthResult.isTrue => Except.ok ()

/-- What a user-defined verb method returns: `None`, an already-built
`HttpResponse`, or a native structure to serialize. -/
inductive VerbRet
  | vNone
  | vResp (r : Resp)
  | vData (d : Val)

/-- The `_meta` configuration of a resource (`ResourceOptions`) together
with the behaviour of its pluggable authentication/authorization/throttle
objects and of the external `mimeparse.best_match` function. -/
structure Meta where
  allowed_methods : List String
  authenticate : Request → AuthResult
  authorize : Request → AuthResult
  should_be_throttled : Request → Bool
  serializer : Serializer
  default_format : String
  bestMatch : List String → String → String

/-- A handler subclass instantiated for one request: its `_meta`, its
cleaning state, and the verb methods the subclass overrides (a verb may
itself raise, e.g. `ImmediateHttpResponse`). -/
structure Resource where
  meta : Meta
  handler : Handler
  verbs : List (String × (Request → Except PyExc VerbRet))

/-- `getattr(self, request_method, None)`: an overridden verb method if
any, else one of the five `BaseHandler` defaults, which raise
`ImmediateHttpResponse(http.HttpMethodNotAllowed())`; any other name is
missing. -/
def getVerb (res : Resource) (name : String) :
    Option (Request → Except PyExc VerbRet) :=
  match res.verbs.lookup name with
  | some f => some f
  | Option.none =>
      if name ∈ ["get", "post", "put", "delete", "patch"] then
        some (fun _ => Except.error (PyExc.immediate (HttpMethodNotAllowed "")))
      else Option.none

/-- `BaseHandler._method_check(request, allowed)`: build the `Allow`
string from the allowed methods uppercased and comma-joined; an `OPTIONS`
request immediately raises a 200 response carrying it, a disallowed method
raises `HttpMethodNotAllowed`, and otherwise the lowercased method is
returned. -/
def _method_check (allowed : List String) (req : Request) :
    Except PyExc String :=
  let request_method := pyLower req.method
  let allows := String.intercalate "," (allowed.map pyUpper)
  if request_method = "options" then
    Except.error (PyExc.immediate (setHeader (HttpResponse allows) "Allow" allows))
  else if request_method ∉ allowed then
    Except.error (PyExc.immediate (setHeader (HttpMethodNotAllowed allows) "Allow" allows))
  else
    Except.ok request_method

/-- `BaseHandler._determine_format`. -/
def _determine_format (res : Resource) (req : Request) : String :=
  determine_format res.meta.bestMatch req res.meta.serializer
    res.meta.default_format

/-- `BaseHandler._serialize(request, data, format)`: on a JSONP format the
source calls `is_valid_jsonp_callback_value`, a name that is neither
defined nor imported at module level in `handler.py`, so reaching that
branch raises `NameError`; the (dead) guarded code is kept for
comparison.  Otherwise the data is handed to the serializer. -/
def _serialize (res : Resource) (req : Request) (data : Val)
    (format : String) : Except PyExc String :=
  if pyIn "text/javascript" format then
    if "is_valid_jsonp_callback_value" ∈ handlerModuleGlobals then
      let callback := dget req.getParams "callback" "callback"
      if is_valid_jsonp_callback_value callback then
        Except.ok (res.meta.serializer.serializeFn data format
          [("callback", callback)])
      else
        Except.error (PyExc.badRequest "JSONP callback name is invalid.")
    else
      Except.error (PyExc.nameError "is_valid_jsonp_callback_value")
  else
    Except.ok (res.meta.serializer.serializeFn data format [])

/-- The stages of the dispatch pipeline named by the spec. -/
inductive Stage
  | mcheck
  | auth
  | authz
  | throttle
  | validate
  | invoke
  | serialize
  deriving DecidableEq, Repr

/-- The fixed stage order of `_dispatch`. -/
def stageOrder : List Stage :=
  [Stage.mcheck, Stage.auth, Stage.authz, Stage.throttle, Stage.validate,
   Stage.invoke, Stage.serialize]

/-- `BaseHandler._dispatch(request)`, instrumented with the list of
pipeline stages it enters (in execution order).  The `Except.error` result
is an exception escaping `_dispatch`, to be handled by `Api.wrap_view`. -/
def _dispatch (res : Resource) (req : Request) :
    List Stage × Except PyExc Resp :=
  match _method_check res.meta.allowed_methods req with
  | Except.error e => ([Stage.mcheck], Except.error e)
  | Except.ok request_method =>
    let method? := getVerb res request_method
    match hookCheck (res.meta.authenticate req) with
    | Except.error e => ([Stage.mcheck, Stage.auth], Except.error e)
    | Except.ok _ =>
      match hookCheck (res.meta.authorize req) with
      | Except.error e => ([Stage.mcheck, Stage.auth, Stage.authz], Except.error e)
      | Except.ok _ =>
        if res.meta.should_be_throttled req then
          ([Stage.mcheck, Stage.auth, Stage.authz, Stage.throttle],
           Except.error (PyExc.immediate HttpTooManyRequests))
        else if _is_valid res.handler then
          match method? with
          | Option.none =>
              -- calling `None` as the verb method
              (stageOrder.take 6,
               Except.error (PyExc.typeError "NoneType object is not callable"))
          | some method =>
            match method req with
            | Except.error e => (stageOrder.take 6, Except.error e)
            | Except.ok (VerbRet.vResp r) => (stageOrder.take 6, Except.ok r)
            | Except.ok VerbRet.vNone => (stageOrder.take 6, Except.ok HttpNoContent)
            | Except.ok (VerbRet.vData d) =>
              let desired_format := _determine_format res req
              match _serialize res req d desired_format with
              | Except.error e => (stageOrder, Except.error e)
              | Except.ok sdata =>
                  (stageOrder,
                   Except.ok { status := 200, content := sdata,
                               headers :=
                                 [("Content-Type", build_content_type desired_format)] })
        else
          ([Stage.mcheck, Stage.auth, Stage.authz, Stage.throttle, Stage.validate],
           Except.ok (HttpBadRequest ""))

/-- A printable message for an exception, standing in for the error data
that `_handle_500` serializes. -/
def excMessage : PyExc → String
  | PyExc.immediate _ => "ImmediateHttpResponse"
  | PyExc.badRequest m => m
  | PyExc.nameError n => "name " ++ n ++ " is not defined"
  | PyExc.typeError m => m

/-- `BaseHandler._handle_500` (non-debug path, non-404 exception): the
error data is serialized in the negotiated format — through `_serialize`,
so it can itself raise — and wrapped in an `HttpApplicationError`
(500; modelled from the spec, `restumize/http.py` absent). -/
def _handle_500 (res : Resource) (req : Request) (e : PyExc) :
    Except PyExc Resp :=
  let desired_format := _determine_format res req
  match _serialize res req (Val.str (excMessage e)) desired_format with
  | Except.error e2 => Except.error e2
  | Except.ok serialized =>
      Except.ok { status := 500, content := serialized, headers := [] }

/-- `Api.wrap_view` around `_dispatch` (production settings: no
`RESTO_FULL_DEBUG`, not the test server): an exception with a `response`
attribute — only `ImmediateHttpResponse` — returns that response, any
other exception goes to `_handle_500`; `none` models an exception
escaping the view. -/
def wrap_view (res : Resource) (req : Request) : Option Resp :=
  match (_dispatch res req).2 with
  | Except.ok r => some r
  | Except.error (PyExc.immediate r) => some r
  | Except.error e =>
      match _handle_500 res req e with
      | Except.ok r => some r
      | Except.error _ => Option.none

/-! ## Object identity and `__deepcopy__` (`fields.py`, `handler.py`)

Python object identity matters for the shared-state invariant: field
objects and their validator lists live in a heap of addresses, and
`BaseHandler.__init__` builds `self.fields` as `copy.deepcopy(self.base_fields)`,
which copies each field through `BaseField.__deepcopy__`. -/

/-- A heap address (Python object identity). -/
abbrev Addr : Type := Nat

/-- A field object as stored on the heap: its scalar attributes inline,
its `validators` attribute as a reference to a separate list object. -/
structure FieldObj where
  kind : FieldKind
  default : Val
  required : Bool
  validatorsRef : Addr
  requiredMsg : String
  invalidMsg : String

/-- The heap: field objects and validator-list objects, with a
next-free-address counter. -/
structure Heap where
  fieldObjs : List (Addr × FieldObj)
  listObjs : List (Addr × List Validator)
  nextAddr : Nat

/-- Address lookup for field objects. -/
def lookupField (h : Heap) (a : Addr) : Option FieldObj :=
  h.fieldObjs.lookup a

/-- Address lookup for validator-list objects. -/
def lookupList (h : Heap) (a : Addr) : Option (List Validator) :=
  h.listObjs.lookup a

/-- Allocate a fresh field object. -/
def allocField (h : Heap) (o : FieldObj) : Heap × Addr :=
  ({ h with fieldObjs := h.fieldObjs ++ [(h.nextAddr, o)],
            nextAddr := h.nextAddr + 1 },
   h.nextAddr)

/-- Allocate a fresh validator-list object. -/
def allocList (h : Heap) (xs : List Validator) : Heap × Addr :=
  ({ h with listObjs := h.listObjs ++ [(h.nextAddr, xs)],
            nextAddr := h.nextAddr + 1 },
   h.nextAddr)

/-- Overwrite the field object at an existing address (an attribute
assignment on that object). -/
def setFieldObj (h : Heap) (a : Addr) (o : FieldObj) : Heap :=
  { h with fieldObjs := h.fieldObjs.map (fun p => if p.1 = a then (a, o) else p) }

/-- Overwrite the validator-list object at an existing address (an
in-place mutation of that list). -/
def setListObj (h : Heap) (a : Addr) (xs : List Validator) : Heap :=
  { h with listObjs := h.listObjs.map (fun p => if p.1 = a then (a, xs) else p) }

/-- `BaseField.__deepcopy__(memo)`: `copy.copy(self)` (a fresh object
sharing every attribute, including the `validators` reference), then
`result.validators = self.validators[:]` (a fresh list with the same
contents). -/
def deepcopyField (h : Heap) (a : Addr) : Heap × Addr :=
  match lookupField h a with
  | Option.none => (h, a)
  | some obj =>
      let pair1 := allocField h obj
      let contents := (lookupList pair1.1 obj.validatorsRef).getD []
      let pair2 := allocList pair1.1 contents
      (setFieldObj pair2.1 pair1.2 { obj with validatorsRef := pair2.2 }, pair1.2)

/-- `copy.deepcopy(self.base_fields)` in `BaseHandler.__init__`: a new
ordered dict whose every value is copied through
`BaseField.__deepcopy__`. -/
def deepcopyFields (h : Heap) (fs : List (String × Addr)) :
    Heap × List (String × Addr) :=
  fs.foldl
    (fun acc p =>
      let r := deepcopyField acc.1 p.2
      (r.1, acc.2 ++ [(p.1, r.2)]))
    (h, [])

/-- Well-formedness: every allocated address is below `nextAddr`. -/
def Heap.wf (h : Heap) : Prop :=
  (∀ p ∈ h.fieldObjs, p.1 < h.nextAddr) ∧ (∀ p ∈ h.listObjs, p.1 < h.nextAddr)

/-- Read a heap field object back into the flat `Field` used by the
cleaning layer. -/
def fieldOfObj (h : Heap) (o : FieldObj) : Field :=
  { kind := o.kind, default := o.default, required := o.required,
    validators := (lookupList h o.validatorsRef).getD [],
    requiredMsg := o.requiredMsg, invalidMsg := o.invalidMsg }

/-! ## Concrete fixtures

Concrete instantiations used to evaluate the embedded code at specified
inputs (witnesses and counterexamples). -/

/-- A serializer with the minimal format registry the spec names: JSON and
JSONP. -/
def stdSer : Serializer :=
  { formats := ["json", "jsonp"],
    content_types := [("json", "application/json"), ("jsonp", "text/javascript")],
    serializeFn := fun _ _ _ => "SERIALIZED" }

/-- A fully permissive `_meta`: the default allowed methods, hooks that
always pass, no throttling. -/
def stdMeta : Meta :=
  { allowed_methods := ["get", "post", "put", "delete", "patch"],
    authenticate := fun _ => AuthResult.isTrue,
    authorize := fun _ => AuthResult.isTrue,
    should_be_throttled := fun _ => false,
    serializer := stdSer,
    default_format := "application/json",
    bestMatch := fun _ _ => "" }

/-- A handler with no declared fields and no request data. -/
def emptyHandler : Handler :=
  { fields := [], hooks := [], get_data := [], post_data := [], files := [] }

/-- A resource whose `get` verb returns a native structure. -/
def stdRes : Resource :=
  { meta := stdMeta, handler := emptyHandler,
    verbs := [("get", fun _ => Except.ok (VerbRet.vData (Val.str "payload")))] }

/-- A plain `GET /` request. -/
def getReq : Request :=
  { method := "GET", getParams := [], httpAccept := Option.none }

/-- A handler with two fields that both fail cleaning: `age` receives a
non-numeric string, `name` is required but absent. -/
def twoFailHandler : Handler :=
  { fields :=
      [("age", IntegerField_init Option.none Option.none Val.none true []),
       ("name", CharField_init Option.none Option.none Val.none true [])],
    hooks := [],
    get_data := [("age", Val.str "abc")],
    post_data := [], files := [] }

/-- `stdRes` restricted to `allowed_methods = ['get']`. -/
def getOnlyRes : Resource :=
  { stdRes with meta := { stdMeta with allowed_methods := ["get"] } }

/-- A `DELETE /` request. -/
def delReq : Request :=
  { method := "DELETE", getParams := [], httpAccept := Option.none }

/-- An `OPTIONS /` request. -/
def optReq : Request :=
  { method := "OPTIONS", getParams := [], httpAccept := Option.none }

/-- A request carrying both an unsupported `format` override and a
`callback` parameter. -/
def xmlCallbackReq : Request :=
  { method := "GET", getParams := [("format", "xml"), ("callback", "cb")],
    httpAccept := Option.none }

/-- `stdRes` over the two-failing-fields handler. -/
def twoFailRes : Resource :=
  { stdRes with handler := twoFailHandler }

/-- A handler where `age` fails cleaning but `name` succeeds. -/
def mixedHandler : Handler :=
  { fields :=
      [("age", IntegerField_init Option.none Option.none Val.none true []),
       ("name", CharField_init Option.none Option.none Val.none true [])],
    hooks := [],
    get_data := [("age", Val.str "abc"), ("name", Val.str "bob")],
    post_data := [], files := [] }

/-- A request with a `callback` parameter (negotiates the JSONP format). -/
def callbackReq : Request :=
  { method := "GET", getParams := [("callback", "cb")],
    httpAccept := Option.none }

/-- A request with an invalid JSONP callback name. -/
def badCallbackReq : Request :=
  { method := "GET", getParams := [("callback", "alert(1)")],
    httpAccept := Option.none }

/-- `stdRes` with an authentication hook that fails. -/
def denyAuthRes : Resource :=
  { stdRes with
    meta := { stdMeta with authenticate := fun _ => AuthResult.notTrue } }

/-- `stdRes` with an authorization hook returning a custom response. -/
def denyAuthzRes : Resource :=
  { stdRes with
    meta := { stdMeta with
      authorize := fun _ => AuthResult.isResp (HttpResponse "forbidden") } }

/-- `stdRes` with the throttle firing. -/
def throttledRes : Resource :=
  { stdRes with
    meta := { stdMeta with should_be_throttled := fun _ => true } }

/-- `stdRes` with no overridden verbs: `get` falls back to the
`BaseHandler` default, which raises an immediate 405. -/
def noVerbRes : Resource :=
  { stdRes with verbs := [] }

/-- A concrete class-level field object living on a small heap. -/
def c9Obj : FieldObj :=
  { kind := FieldKind.char, default := Val.str "", required := true,
    validatorsRef := 1, requiredMsg := "This field is required.",
    invalidMsg := "Enter a valid value." }

/-- A small heap: one class-level field object at address 0 whose
validator list lives at address 1. -/
def c9Heap : Heap :=
  { fieldObjs := [(0, c9Obj)], listObjs := [(1, [])], nextAddr := 2 }

/-! # Theorems -/

/-! ## Association-list dictionary lemmas -/

theorem lookup_append_left {β : Type} {m : List (String × β)} {k : String}
    {v : β} (h : m.lookup k = some v) (m2 : List (String × β)) :
    (m ++ m2).lookup k = some v := by
  induction m with
  | nil => simp [List.lookup] at h
  | cons p m ih =>
      rcases p with ⟨a, b⟩
      by_cases hk : k = a
      · subst hk
        simpa [List.lookup] using h
      · have hk2 : (k == a) = false := by simp [hk]
        simp only [List.lookup, List.cons_append, hk2] at h ⊢
        exact ih h

theorem lookup_append_right {β : Type} {m : List (String × β)} {k : String}
    (h : m.lookup k = Option.none) (m2 : List (String × β)) :
    (m ++ m2).lookup k = m2.lookup k := by
  induction m with
  | nil => simp
  | cons p m ih =>
      rcases p with ⟨a, b⟩
      by_cases hk : k = a
      · subst hk
        simp [List.lookup] at h
      · have hk2 : (k == a) = false := by simp [hk]
        simp only [List.lookup, List.cons_append, hk2] at h ⊢
        exact ih h

theorem beq_false_of_ne {a b : String} (h : ¬a = b) : (a == b) = false := by
  simp [h]

theorem lookup_overwrite_isSome {β : Type} {m : List (String × β)}
    {k : String} (v : β) (h : (m.lookup k).isSome) :
    ((m.map (fun p => if p.1 = k then (k, v) else p)).lookup k) = some v := by
  induction m with
  | nil => simp [List.lookup] at h
  | cons p m ih =>
      rcases p with ⟨a, b⟩
      simp only [List.map_cons]
      by_cases hk : a = k
      · subst hk
        have hx : (if ((a, b) : String × β).1 = a then (a, v) else (a, b)) = (a, v) :=
          if_pos rfl
        rw [hx]
        simp [List.lookup]
      · have hx : (if ((a, b) : String × β).1 = k then (k, v) else (a, b)) = (a, b) :=
          if_neg hk
        rw [hx]
        have hk2 : (k == a) = false := beq_false_of_ne (fun hc => hk hc.symm)
        simp only [List.lookup, hk2] at h ⊢
        exact ih h

theorem lookup_overwrite_ne {β : Type} (m : List (String × β))
    (k k' : String) (v : β) (h : k' ≠ k) :
    ((m.map (fun p => if p.1 = k then (k, v) else p)).lookup k') =
      m.lookup k' := by
  induction m with
  | nil => simp
  | cons p m ih =>
      rcases p with ⟨a, b⟩
      simp only [List.map_cons]
      by_cases ha : a = k
      · subst ha
        have hx : (if ((a, b) : String × β).1 = a then (a, v) else (a, b)) = (a, v) :=
          if_pos rfl
        rw [hx]
        have hk2 : (k' == a) = false := beq_false_of_ne h
        simp [List.lookup, hk2, ih]
      · have hx : (if ((a, b) : String × β).1 = k then (k, v) else (a, b)) = (a, b) :=
          if_neg ha
        rw [hx]
        simp [List.lookup, ih]

theorem lookup_dinsert_self {β : Type} (m : List (String × β)) (k : String)
    (v : β) : (dinsert m k v).lookup k = some v := by
  unfold dinsert
  cases hm : m.lookup k with
  | none =>
      simp only [hm, Option.isSome_none, Bool.false_eq_true, if_false]
      rw [lookup_append_right hm]
      simp [List.lookup]
  | some w =>
      have hs : (m.lookup k).isSome := by simp [hm]
      simp only [hm, Option.isSome_some, if_true]
      exact lookup_overwrite_isSome v hs

theorem lookup_dinsert_ne {β : Type} (m : List (String × β)) (k k' : String)
    (v : β) (h : k' ≠ k) : (dinsert m k v).lookup k' = m.lookup k' := by
  unfold dinsert
  cases hm : m.lookup k with
  | none =>
      simp only [hm, Option.isSome_none, Bool.false_eq_true, if_false]
      cases hm2 : m.lookup k' with
      | none =>
          rw [lookup_append_right hm2]
          have hk2 : (k' == k) = false := by simp [h]
          simp [List.lookup, hk2]
      | some w => exact lookup_append_left hm2 _
  | some w =>
      simp only [hm, Option.isSome_some, if_true]
      exact lookup_overwrite_ne m k k' v h

theorem dremove_cons_self {β : Type} (m : List (String × β)) (k : String)
    (b : β) : dremove ((k, b) :: m) k = dremove m k := by
  simp [dremove, List.filter_cons]

theorem dremove_cons_ne {β : Type} (m : List (String × β)) {a k : String}
    (b : β) (h : ¬a = k) :
    dremove ((a, b) :: m) k = (a, b) :: dremove m k := by
  simp [dremove, List.filter_cons, h]

theorem lookup_dremove_self {β : Type} (m : List (String × β)) (k : String) :
    (dremove m k).lookup k = Option.none := by
  induction m with
  | nil => simp [dremove]
  | cons p m ih =>
      rcases p with ⟨a, b⟩
      by_cases ha : a = k
      · subst ha
        rw [dremove_cons_self]
        exact ih
      · rw [dremove_cons_ne m b ha]
        have hk2 : (k == a) = false := beq_false_of_ne (fun hc => ha hc.symm)
        simp [List.lookup, hk2, ih]

theorem lookup_dremove_ne {β : Type} (m : List (String × β)) (k k' : String)
    (h : k' ≠ k) : (dremove m k).lookup k' = m.lookup k' := by
  induction m with
  | nil => simp [dremove]
  | cons p m ih =>
      rcases p with ⟨a, b⟩
      by_cases ha : a = k
      · subst ha
        rw [dremove_cons_self]
        have hk2 : (k' == a) = false := beq_false_of_ne h
        simp [List.lookup, hk2, ih]
      · rw [dremove_cons_ne m b ha]
        by_cases hk : k' = a
        · subst hk
          simp [List.lookup]
        · have hk2 : (k' == a) = false := beq_false_of_ne hk
          simp [List.lookup, hk2, ih]

/-! ## C3: method check, `Allow` header, `OPTIONS` short-circuit -/

/-- C3: for every request whose lowercased HTTP method is absent from the
resource's allowed-methods list (and is not `options`), dispatch returns a
405-equivalent response whose `Allow` header is exactly the allowed methods
uppercased and comma-joined; and every `OPTIONS` request short-circuits at
this check with that same `Allow` header, regardless of the
authentication, authorization, throttle, or validation outcomes (which are
arbitrary in `res`). -/
theorem C3_method_check_allow (res : Resource) (req : Request) :
    (pyLower req.method ≠ "options" →
      pyLower req.method ∉ res.meta.allowed_methods →
      wrap_view res req =
        some (setHeader
          (HttpMethodNotAllowed
            (String.intercalate "," (res.meta.allowed_methods.map pyUpper)))
          "Allow"
          (String.intercalate "," (res.meta.allowed_methods.map pyUpper)))) ∧
    (pyLower req.method = "options" →
      wrap_view res req =
        some (setHeader
          (HttpResponse
            (String.intercalate "," (res.meta.allowed_methods.map pyUpper)))
          "Allow"
          (String.intercalate "," (res.meta.allowed_methods.map pyUpper)))) := by
  constructor
  · intro h1 h2
    have hm : _method_check res.meta.allowed_methods req =
        Except.error (PyExc.immediate (setHeader
          (HttpMethodNotAllowed
            (String.intercalate "," (res.meta.allowed_methods.map pyUpper)))
          "Allow"
          (String.intercalate "," (res.meta.allowed_methods.map pyUpper)))) := by
      simp [_method_check, h1, h2]
    simp [wrap_view, _dispatch, hm]
  · intro h1
    have hm : _method_check res.meta.allowed_methods req =
        Except.error (PyExc.immediate (setHeader
          (HttpResponse
            (String.intercalate "," (res.meta.allowed_methods.map pyUpper)))
          "Allow"
          (String.intercalate "," (res.meta.allowed_methods.map pyUpper)))) := by
      simp [_method_check, h1]
    simp [wrap_view, _dispatch, hm]

/-- Witness for C3: on a resource allowing only `get`, a `DELETE` request
gets the 405 with `Allow: GET`, and an `OPTIONS` request gets the
short-circuit response with the same header. -/
theorem C3_method_check_allow_witness :
    wrap_view getOnlyRes delReq =
      some (setHeader
        (HttpMethodNotAllowed
          (String.intercalate "," (getOnlyRes.meta.allowed_methods.map pyUpper)))
        "Allow"
        (String.intercalate "," (getOnlyRes.meta.allowed_methods.map pyUpper))) ∧
    wrap_view getOnlyRes optReq =
      some (setHeader
        (HttpResponse
          (String.intercalate "," (getOnlyRes.meta.allowed_methods.map pyUpper)))
        "Allow"
        (String.intercalate "," (getOnlyRes.meta.allowed_methods.map pyUpper))) :=
  ⟨(C3_method_check_allow getOnlyRes delReq).1 (by decide) (by decide),
   (C3_method_check_allow getOnlyRes optReq).2 (by decide)⟩

/-! ## C5: `determine_format` priority -/

/-- C5 counterexample: with a serializer supporting `json`/`jsonp`, a
request carrying `?format=xml&callback=cb` has an explicit non-empty
`format` parameter, yet `determine_format` yields the JSONP MIME type, not
the MIME type associated with `xml` — so an explicit `format` parameter
does not always yield that format's MIME type. -/
theorem C5_counterexample :
    dget xmlCallbackReq.getParams "format" "" = "xml" ∧
    determine_format stdMeta.bestMatch xmlCallbackReq stdSer "application/json" =
      "text/javascript" ∧
    get_mime_for_format stdSer "xml" ≠ "text/javascript" := by
  refine ⟨rfl, rfl, ?_⟩
  decide

/-- C5 (amended): `determine_format` resolves the format by this priority:
a `format` query parameter naming a serializer-supported format yields
that format's MIME type regardless of the `Accept` header; an empty or
unsupported `format` value is ignored, and then the presence of a
`callback` parameter yields the JSONP format's MIME type; otherwise a
non-trivial `Accept` header with a non-empty `mimeparse` best match
against the (reversed) supported formats yields that match; otherwise the
configured default format. -/
theorem C5_determine_format_priority (bm : List String → String → String)
    (req : Request) (s : Serializer) (dflt : String) :
    (dget req.getParams "format" "" ≠ "" →
      dget req.getParams "format" "" ∈ s.formats →
      determine_format bm req s dflt =
        get_mime_for_format s (dget req.getParams "format" "")) ∧
    ((dget req.getParams "format" "" = "" ∨
        dget req.getParams "format" "" ∉ s.formats) →
      (req.getParams.lookup "callback").isSome →
      determine_format bm req s dflt = get_mime_for_format s "jsonp") ∧
    ((dget req.getParams "format" "" = "" ∨
        dget req.getParams "format" "" ∉ s.formats) →
      (req.getParams.lookup "callback").isSome = false →
      req.httpAccept.getD "*/*" ≠ "*/*" →
      bm (supported_formats s).reverse (req.httpAccept.getD "*/*") ≠ "" →
      determine_format bm req s dflt =
        bm (supported_formats s).reverse (req.httpAccept.getD "*/*")) ∧
    ((dget req.getParams "format" "" = "" ∨
        dget req.getParams "format" "" ∉ s.formats) →
      (req.getParams.lookup "callback").isSome = false →
      (req.httpAccept.getD "*/*" = "*/*" ∨
        bm (supported_formats s).reverse (req.httpAccept.getD "*/*") = "") →
      determine_format bm req s dflt = dflt) := by
  refine ⟨?_, ?_, ?_, ?_⟩
  · intro h1 h2
    simp [determine_format, h1, h2]
  · intro h1 h2
    have hng : ¬(dget req.getParams "format" "" ≠ "" ∧
        dget req.getParams "format" "" ∈ s.formats) := by
      rcases h1 with h1 | h1
      · intro hc; exact hc.1 h1
      · intro hc; exact h1 hc.2
    simp [determine_format, hng, h2]
  · intro h1 h2 h3 h4
    have hng : ¬(dget req.getParams "format" "" ≠ "" ∧
        dget req.getParams "format" "" ∈ s.formats) := by
      rcases h1 with h1 | h1
      · intro hc; exact hc.1 h1
      · intro hc; exact h1 hc.2
    simp [determine_format, hng, h2, h3, h4]
  · intro h1 h2 h3
    have hng : ¬(dget req.getParams "format" "" ≠ "" ∧
        dget req.getParams "format" "" ∈ s.formats) := by
      rcases h1 with h1 | h1
      · intro hc; exact hc.1 h1
      · intro hc; exact h1 hc.2
    rcases h3 with h3 | h3
    · simp [determine_format, hng, h2, h3]
    · by_cases h4 : req.httpAccept.getD "*/*" = "*/*"
      · simp [determine_format, hng, h2, h4]
      · simp [determine_format, hng, h2, h3, h4]

/-- Witness for C5 (amended): each of the four priority rules evaluated on
a concrete request against the standard serializer. -/
theorem C5_determine_format_priority_witness :
    determine_format stdMeta.bestMatch
      { method := "GET", getParams := [("format", "json")],
        httpAccept := some "text/html" } stdSer "application/json" =
      get_mime_for_format stdSer "json" ∧
    determine_format stdMeta.bestMatch xmlCallbackReq stdSer "application/json" =
      get_mime_for_format stdSer "jsonp" ∧
    determine_format stdMeta.bestMatch
      { method := "GET", getParams := [], httpAccept := some "text/html" }
      stdSer "application/json" = "application/json" :=
  ⟨(C5_determine_format_priority stdMeta.bestMatch
      { method := "GET", getParams := [("format", "json")],
        httpAccept := some "text/html" } stdSer "application/json").1
    (by decide) (by decide),
   (C5_determine_format_priority stdMeta.bestMatch xmlCallbackReq stdSer
      "application/json").2.1 (by right; decide) (by decide),
   (C5_determine_format_priority stdMeta.bestMatch
      { method := "GET", getParams := [], httpAccept := some "text/html" }
      stdSer "application/json").2.2.2 (by left; decide) (by decide)
     (by right; rfl)⟩

/-! ## C7: empty values on required/optional fields -/

theorem valIsEmpty_iff (v : Val) :
    v.isEmpty = true ↔ v = Val.none ∨ v = Val.str "" := by
  cases v <;> simp [Val.isEmpty, pyMem, pyEq, EMPTY_VALUES]

/-- C7 counterexample: a `CharField` constructed with `required=True` and
the non-empty default `"x"` cleans the empty value to `"x"` without
raising any validation error, because `to_python` substitutes the default
before the required check runs. -/
theorem C7_counterexample :
    (CharField_init Option.none Option.none (Val.str "x") true []).required = true ∧
    (Val.str "").isEmpty = true ∧
    clean (CharField_init Option.none Option.none (Val.str "x") true [])
      (Val.str "") = Except.ok (Val.str "x") :=
  ⟨rfl, rfl, rfl⟩

/-- C7 (amended): for `CharField` and `IntegerField`, a field whose
declared default is itself empty raises the required error on an empty
value when `required=True`, and returns the declared default when
`required=False` (for `CharField` a `None` default having been replaced by
the empty string at construction); with no attached validators, an
optional field returns its declared default on empty input even when that
default is non-empty.  A required field whose declared default is
non-empty accepts the empty value and returns the default instead (the
counterexample). -/
theorem C7_empty_value_cleaning :
    (∀ mx mn d vds v, v.isEmpty = true → d.isEmpty = true →
      clean (CharField_init mx mn d true vds) v =
        Except.error ["This field is required."]) ∧
    (∀ mx mn d vds v, v.isEmpty = true → d.isEmpty = true →
      clean (CharField_init mx mn d false vds) v =
        Except.ok (CharField_init mx mn d false vds).default) ∧
    (∀ d v, v.isEmpty = true →
      clean (CharField_init Option.none Option.none d false []) v =
        Except.ok (CharField_init Option.none Option.none d false []).default) ∧
    (∀ mx mn d vds v, v.isEmpty = true → d.isEmpty = true →
      clean (IntegerField_init mx mn d true vds) v =
        Except.error ["This field is required."]) ∧
    (∀ mx mn d vds v, v.isEmpty = true → d.isEmpty = true →
      clean (IntegerField_init mx mn d false vds) v = Except.ok d) ∧
    (∀ d v, v.isEmpty = true →
      clean (IntegerField_init Option.none Option.none d false []) v =
        Except.ok d) := by
  refine ⟨?_, ?_, ?_, ?_, ?_, ?_⟩
  · intro mx mn d vds v hv hd
    rcases (valIsEmpty_iff v).1 hv with rfl | rfl <;>
      rcases (valIsEmpty_iff d).1 hd with rfl | rfl <;>
        cases mx <;> cases mn <;> rfl
  · intro mx mn d vds v hv hd
    rcases (valIsEmpty_iff v).1 hv with rfl | rfl <;>
      rcases (valIsEmpty_iff d).1 hd with rfl | rfl <;>
        cases mx <;> cases mn <;> rfl
  · intro d v hv
    by_cases hd : d = Val.none
    · subst hd
      rcases (valIsEmpty_iff v).1 hv with rfl | rfl <;> rfl
    · have hfld : CharField_init Option.none Option.none d false [] =
          { kind := FieldKind.char, default := d, required := false,
            validators := [], requiredMsg := "This field is required.",
            invalidMsg := "Enter a valid value." } := by
        simp [CharField_init, BaseField_init, hd]
      rw [hfld]
      rcases (valIsEmpty_iff v).1 hv with rfl | rfl <;>
        by_cases hde : d.isEmpty = true <;>
          simp [clean, to_python, charToPython, validate, run_validators,
            Val.isEmpty, pyMem, pyEq, EMPTY_VALUES, hde] <;> rfl
  · intro mx mn d vds v hv hd
    rcases (valIsEmpty_iff v).1 hv with rfl | rfl <;>
      rcases (valIsEmpty_iff d).1 hd with rfl | rfl <;>
        cases mx <;> cases mn <;> rfl
  · intro mx mn d vds v hv hd
    rcases (valIsEmpty_iff v).1 hv with rfl | rfl <;>
      rcases (valIsEmpty_iff d).1 hd with rfl | rfl <;>
        cases mx <;> cases mn <;> rfl
  · intro d v hv
    have hfld : IntegerField_init Option.none Option.none d false [] =
        { kind := FieldKind.integer, default := d, required := false,
          validators := [], requiredMsg := "This field is required.",
          invalidMsg := "Enter a whole number." } := by
      simp [IntegerField_init, BaseField_init]
    rw [hfld]
    rcases (valIsEmpty_iff v).1 hv with rfl | rfl <;>
      by_cases hde : d.isEmpty = true <;>
        simp [clean, to_python, integerToPython, validate, run_validators,
          Val.isEmpty, pyMem, pyEq, EMPTY_VALUES, hde] <;> rfl

/-- Witness for C7 (amended): the six clauses evaluated on concrete
fields. -/
theorem C7_empty_value_cleaning_witness :
    clean (CharField_init Option.none Option.none Val.none true [])
      (Val.str "") = Except.error ["This field is required."] ∧
    clean (CharField_init Option.none Option.none Val.none false [])
      (Val.str "") =
      Except.ok (CharField_init Option.none Option.none Val.none false []).default ∧
    clean (CharField_init Option.none Option.none (Val.str "dflt") false [])
      Val.none =
      Except.ok
        (CharField_init Option.none Option.none (Val.str "dflt") false []).default ∧
    clean (IntegerField_init Option.none Option.none Val.none true [])
      Val.none = Except.error ["This field is required."] ∧
    clean (IntegerField_init Option.none Option.none Val.none false [])
      Val.none = Except.ok Val.none ∧
    clean (IntegerField_init Option.none Option.none (Val.int 7) false [])
      (Val.str "") = Except.ok (Val.int 7) :=
  ⟨C7_empty_value_cleaning.1 Option.none Option.none Val.none [] (Val.str "")
     rfl rfl,
   C7_empty_value_cleaning.2.1 Option.none Option.none Val.none [] (Val.str "")
     rfl rfl,
   C7_empty_value_cleaning.2.2.1 (Val.str "dflt") Val.none rfl,
   C7_empty_value_cleaning.2.2.2.1 Option.none Option.none Val.none [] Val.none
     rfl rfl,
   C7_empty_value_cleaning.2.2.2.2.1 Option.none Option.none Val.none []
     Val.none rfl rfl,
   C7_empty_value_cleaning.2.2.2.2.2 (Val.int 7) (Val.str "") rfl⟩

/-! ## C8: `BooleanField` cleaning -/

/-- C8 counterexample: the non-empty input `"0"` on a required
`BooleanField` raises the required error (instead of cleaning to `False`),
because `to_python` raises whenever the coerced value is falsy and the
field is required — so the required error is not raised exactly on empty
input. -/
theorem C8_counterexample :
    (Val.str "0").isEmpty = false ∧
    clean (BooleanField_init Val.none true []) (Val.str "0") =
      Except.error ["This field is required."] :=
  ⟨rfl, rfl⟩

/-- C8 (amended, for string inputs and fields without custom validators):
`BooleanField` cleaning coerces `"0"` and case-insensitive `"false"` to
`False` and every other non-empty string to `True`, the empty string also
coercing to `False`; a non-required field returns the coerced boolean,
while a required field raises the required error exactly when the coerced
value is `False` — that is, when the input is empty, `"0"`, or `"false"`
in any letter case. -/
theorem C8_boolean_cleaning (d : Val) (s : String) :
    (pyLower s = "false" ∨ pyLower s = "0" →
      clean (BooleanField_init d false []) (Val.str s) =
        Except.ok (Val.bool false)) ∧
    (s ≠ "" → ¬(pyLower s = "false" ∨ pyLower s = "0") →
      clean (BooleanField_init d false []) (Val.str s) =
        Except.ok (Val.bool true) ∧
      clean (BooleanField_init d true []) (Val.str s) =
        Except.ok (Val.bool true)) ∧
    (s = "" ∨ pyLower s = "false" ∨ pyLower s = "0" →
      clean (BooleanField_init d true []) (Val.str s) =
        Except.error ["This field is required."]) ∧
    clean (BooleanField_init d false []) (Val.str "") =
      Except.ok (Val.bool false) := by
  refine ⟨?_, ?_, ?_, ?_⟩
  · intro h
    simp [clean, to_python, booleanToPython, validate, run_validators,
      BooleanField_init, BaseField_init, Val.isEmpty, pyMem, pyEq,
      EMPTY_VALUES, truthy, h] <;> rfl
  · intro h1 h2
    constructor <;>
      simp [clean, to_python, booleanToPython, validate, run_validators,
        BooleanField_init, BaseField_init, Val.isEmpty, pyMem, pyEq,
        EMPTY_VALUES, truthy, h1, h2] <;> rfl
  · intro h
    rcases h with rfl | h
    · rfl
    · simp [clean, to_python, booleanToPython, validate, run_validators,
        BooleanField_init, BaseField_init, Val.isEmpty, pyMem, pyEq,
        EMPTY_VALUES, truthy, h] <;> rfl
  · rfl

/-- Witness for C8 (amended): the clauses evaluated on concrete strings
(`"FALSE"`, `"yes"`, `"0"`, `""`). -/
theorem C8_boolean_cleaning_witness :
    clean (BooleanField_init Val.none false []) (Val.str "FALSE") =
      Except.ok (Val.bool false) ∧
    clean (BooleanField_init Val.none false []) (Val.str "yes") =
      Except.ok (Val.bool true) ∧
    clean (BooleanField_init Val.none true []) (Val.str "0") =
      Except.error ["This field is required."] ∧
    clean (BooleanField_init Val.none false []) (Val.str "") =
      Except.ok (Val.bool false) :=
  ⟨(C8_boolean_cleaning Val.none "FALSE").1 (by left; decide),
   ((C8_boolean_cleaning Val.none "yes").2.1 (by decide) (by decide)).1,
   (C8_boolean_cleaning Val.none "0").2.2.1 (by right; right; decide),
   (C8_boolean_cleaning Val.none "").2.2.2⟩

/-! ## `_clean_fields` characterization -/

theorem cleanFieldStep_frame (h : Handler) (st : CleanState) (name : String)
    (field : Field) (name' : String) (hne : name' ≠ name) :
    (cleanFieldStep h st name field).errors.lookup name' =
      st.errors.lookup name' ∧
    (cleanFieldStep h st name field).cleanedData.lookup name' =
      st.cleanedData.lookup name' := by
  cases hc : clean field (_get_raw_value h name) with
  | error e =>
      simp only [cleanFieldStep, hc]
      exact ⟨lookup_dinsert_ne _ _ _ _ hne, lookup_dremove_ne _ _ _ hne⟩
  | ok v =>
      cases hh : h.hooks.lookup name with
      | none =>
          simp only [cleanFieldStep, hc, hh]
          exact ⟨by trivial, lookup_dinsert_ne _ _ _ _ hne⟩
      | some hook =>
          cases hk : hook (dinsert st.cleanedData name v) with
          | ok v2 =>
              simp only [cleanFieldStep, hc, hh, hk]
              refine ⟨by trivial, ?_⟩
              rw [lookup_dinsert_ne _ _ _ _ hne, lookup_dinsert_ne _ _ _ _ hne]
          | error e =>
              simp only [cleanFieldStep, hc, hh, hk]
              refine ⟨lookup_dinsert_ne _ _ _ _ hne, ?_⟩
              rw [lookup_dremove_ne _ _ _ hne, lookup_dinsert_ne _ _ _ _ hne]

theorem cleanFold_frame (h : Handler) (fs : List (String × Field))
    (name : String) (hn : name ∉ fs.map Prod.fst) :
    ∀ st : CleanState,
      (fs.foldl (fun st p => cleanFieldStep h st p.1 p.2) st).errors.lookup name =
        st.errors.lookup name ∧
      (fs.foldl (fun st p => cleanFieldStep h st p.1 p.2) st).cleanedData.lookup name =
        st.cleanedData.lookup name := by
  induction fs with
  | nil => intro st; exact ⟨rfl, rfl⟩
  | cons p fs ih =>
      intro st
      have hn1 : name ≠ p.1 := by
        intro hc
        exact hn (by simp [hc])
      have hn2 : name ∉ fs.map Prod.fst := by
        intro hc
        exact hn (by simp [hc])
      rcases ih hn2 (cleanFieldStep h st p.1 p.2) with ⟨he, hc⟩
      rcases cleanFieldStep_frame h st p.1 p.2 name hn1 with ⟨he2, hc2⟩
      exact ⟨by simpa [he2] using he, by simpa [hc2] using hc⟩

theorem cleanFieldStep_self_error (h : Handler) (st : CleanState)
    (name : String) (field : Field) (e : List String)
    (hc : clean field (_get_raw_value h name) = Except.error e) :
    (cleanFieldStep h st name field).errors.lookup name = some e ∧
    (cleanFieldStep h st name field).cleanedData.lookup name = Option.none := by
  simp only [cleanFieldStep, hc]
  exact ⟨lookup_dinsert_self _ _ _, lookup_dremove_self _ _⟩

theorem cleanFieldStep_self_ok (h : Handler) (st : CleanState)
    (name : String) (field : Field) (v : Val)
    (hc : clean field (_get_raw_value h name) = Except.ok v)
    (hh : h.hooks.lookup name = Option.none) :
    (cleanFieldStep h st name field).cleanedData.lookup name = some v ∧
    (cleanFieldStep h st name field).errors.lookup name =
      st.errors.lookup name := by
  simp only [cleanFieldStep, hc, hh]
  exact ⟨lookup_dinsert_self _ _ _, by trivial⟩

theorem cleanFieldStep_self_cases (h : Handler) (st : CleanState)
    (name : String) (field : Field) :
    ((cleanFieldStep h st name field).cleanedData.lookup name = Option.none) ∨
    ((cleanFieldStep h st name field).errors.lookup name =
      st.errors.lookup name) := by
  cases hc : clean field (_get_raw_value h name) with
  | error e =>
      simp only [cleanFieldStep, hc]
      exact Or.inl (lookup_dremove_self _ _)
  | ok v =>
      cases hh : h.hooks.lookup name with
      | none =>
          simp only [cleanFieldStep, hc, hh]
          exact Or.inr (by trivial)
      | some hook =>
          cases hk : hook (dinsert st.cleanedData name v) with
          | ok v2 =>
              simp only [cleanFieldStep, hc, hh, hk]
              exact Or.inr (by trivial)
          | error e =>
              simp only [cleanFieldStep, hc, hh, hk]
              exact Or.inl (lookup_dremove_self _ _)

/-- Splitting the `_clean_fields` loop around one field: there is a state
with no entry yet under the field's name such that the final entries under
that name are those produced by the field's own step. -/
theorem clean_fields_split (h : Handler)
    (hnd : (h.fields.map Prod.fst).Nodup) {name : String} {field : Field}
    (hmem : (name, field) ∈ h.fields) :
    ∃ st : CleanState,
      st.errors.lookup name = Option.none ∧
      st.cleanedData.lookup name = Option.none ∧
      (_clean_fields h).errors.lookup name =
        (cleanFieldStep h st name field).errors.lookup name ∧
      (_clean_fields h).cleanedData.lookup name =
        (cleanFieldStep h st name field).cleanedData.lookup name := by
  obtain ⟨l1, l2, hsplit⟩ := List.append_of_mem hmem
  rw [hsplit] at hnd
  simp only [List.map_append, List.map_cons] at hnd
  have hdisj := List.disjoint_of_nodup_append hnd
  have hn1 : name ∉ l1.map Prod.fst := fun hc =>
    hdisj hc (List.mem_cons_self _ _)
  have hn2 : name ∉ l2.map Prod.fst :=
    (List.nodup_cons.1 hnd.of_append_right).1
  refine ⟨l1.foldl (fun st p => cleanFieldStep h st p.1 p.2)
    { cleanedData := [], errors := [] }, ?_, ?_, ?_, ?_⟩
  · rcases cleanFold_frame h l1 name hn1 { cleanedData := [], errors := [] }
      with ⟨h1, _⟩
    simpa [List.lookup] using h1
  · rcases cleanFold_frame h l1 name hn1 { cleanedData := [], errors := [] }
      with ⟨_, h2⟩
    simpa [List.lookup] using h2
  · have hfold : _clean_fields h =
        l2.foldl (fun st p => cleanFieldStep h st p.1 p.2)
          (cleanFieldStep h
            (l1.foldl (fun st p => cleanFieldStep h st p.1 p.2)
              { cleanedData := [], errors := [] }) name field) := by
      unfold _clean_fields
      rw [hsplit, List.foldl_append, List.foldl_cons]
    rw [hfold]
    exact (cleanFold_frame h l2 name hn2 _).1
  · have hfold : _clean_fields h =
        l2.foldl (fun st p => cleanFieldStep h st p.1 p.2)
          (cleanFieldStep h
            (l1.foldl (fun st p => cleanFieldStep h st p.1 p.2)
              { cleanedData := [], errors := [] }) name field) := by
      unfold _clean_fields
      rw [hsplit, List.foldl_append, List.foldl_cons]
    rw [hfold]
    exact (cleanFold_frame h l2 name hn2 _).2

/-- The `_clean_fields` loop seen from one field: its own `clean` outcome
determines the entries under its name (given unique field names). -/
theorem clean_fields_lookup (h : Handler)
    (hnd : (h.fields.map Prod.fst).Nodup) (name : String) (field : Field)
    (hmem : (name, field) ∈ h.fields) :
    (∀ e, clean field (_get_raw_value h name) = Except.error e →
      (_clean_fields h).errors.lookup name = some e ∧
      (_clean_fields h).cleanedData.lookup name = Option.none) ∧
    (∀ v, clean field (_get_raw_value h name) = Except.ok v →
      h.hooks.lookup name = Option.none →
      (_clean_fields h).cleanedData.lookup name = some v ∧
      (_clean_fields h).errors.lookup name = Option.none) := by
  obtain ⟨st, hse, hsc, hfe, hfc⟩ := clean_fields_split h hnd hmem
  constructor
  · intro e hc
    rcases cleanFieldStep_self_error h st name field e hc with ⟨h1, h2⟩
    rw [hfe, hfc, h1, h2]
    exact ⟨rfl, rfl⟩
  · intro v hc hh
    rcases cleanFieldStep_self_ok h st name field v hc hh with ⟨h1, h2⟩
    rw [hfe, hfc, h1, h2, hse]
    exact ⟨rfl, rfl⟩

/-- Disjointness: no name carries both an error entry and a cleaned-data
entry after `_clean_fields`. -/
theorem clean_fields_disjoint (h : Handler)
    (hnd : (h.fields.map Prod.fst).Nodup) (name : String)
    (he : ((_clean_fields h).errors.lookup name).isSome) :
    (_clean_fields h).cleanedData.lookup name = Option.none := by
  by_cases hmem : name ∈ h.fields.map Prod.fst
  · rcases List.mem_map.1 hmem with ⟨⟨name2, field⟩, hp, hpeq⟩
    dsimp at hpeq
    subst hpeq
    obtain ⟨st, hse, hsc, hfe, hfc⟩ := clean_fields_split h hnd hp
    rcases cleanFieldStep_self_cases h st name2 field with h1 | h1
    · rw [hfc, h1]
    · exfalso
      rw [hfe, h1, hse] at he
      simp at he
  · exfalso
    rcases cleanFold_frame h h.fields name hmem
        { cleanedData := [], errors := [] } with ⟨h1, _⟩
    unfold _clean_fields at he
    rw [h1] at he
    simp [List.lookup] at he

/-! ## C2: validation-failure response -/

/-- C2 counterexample: the two-failing-fields handler collects both error
entries, yet dispatch answers with `http.HttpBadRequest()` — a 400 whose
body is empty and so carries no per-field error detail. -/
theorem C2_counterexample :
    (_full_clean twoFailHandler).errors =
      [("age", ["Enter a whole number."]),
       ("name", ["This field is required."])] ∧
    wrap_view twoFailRes getReq = some (HttpBadRequest "") ∧
    (HttpBadRequest "").content = "" :=
  ⟨rfl, rfl, rfl⟩

/-- C2 (amended): when the pipeline reaches validation and some field
fails, dispatch returns the 400-equivalent `HttpBadRequest()` with an
empty body — the per-field error detail is collected on the handler's
`_errors` map (an entry for every failing field, not only the first) but
is not carried by the response. -/
theorem C2_validation_failure (res : Resource) (req : Request)
    (hm : _method_check res.meta.allowed_methods req =
      Except.ok (pyLower req.method))
    (ha : hookCheck (res.meta.authenticate req) = Except.ok ())
    (hz : hookCheck (res.meta.authorize req) = Except.ok ())
    (ht : res.meta.should_be_throttled req = false)
    (hv : _is_valid res.handler = false) :
    wrap_view res req = some (HttpBadRequest "") ∧
    (HttpBadRequest "").status = 400 ∧
    (HttpBadRequest "").content = "" ∧
    (∀ name field e, (res.handler.fields.map Prod.fst).Nodup →
      (name, field) ∈ res.handler.fields →
      clean field (_get_raw_value res.handler name) = Except.error e →
      (_full_clean res.handler).errors.lookup name = some e) := by
  refine ⟨?_, rfl, rfl, ?_⟩
  · simp [wrap_view, _dispatch, hm, ha, hz, ht, hv]
  · intro name field e hnd hmem hc
    have h1 := (clean_fields_lookup res.handler hnd name field hmem).1 e hc
    have h2 : (_full_clean res.handler).errors =
        (_clean_fields res.handler).errors := rfl
    rw [h2]
    exact h1.1

/-- Witness for C2 (amended): the two-failing-fields resource gets the
empty-bodied 400 and both fields appear in the handler's error map. -/
theorem C2_validation_failure_witness :
    wrap_view twoFailRes getReq = some (HttpBadRequest "") ∧
    (_full_clean twoFailRes.handler).errors.lookup "age" =
      some ["Enter a whole number."] ∧
    (_full_clean twoFailRes.handler).errors.lookup "name" =
      some ["This field is required."] := by
  have h := C2_validation_failure twoFailRes getReq rfl rfl rfl rfl rfl
  refine ⟨h.1, ?_, ?_⟩
  · exact h.2.2.2 "age"
      (IntegerField_init Option.none Option.none Val.none true [])
      ["Enter a whole number."] (by decide) (List.Mem.head _) rfl
  · exact h.2.2.2 "name"
      (CharField_init Option.none Option.none Val.none true [])
      ["This field is required."] (by decide)
      (List.Mem.tail _ (List.Mem.head _)) rfl

/-! ## C10: cleaning is not atomic on failure -/

/-- C10: whenever at least one field fails cleaning, `_full_clean` deletes
the `_cleaned_data` attribute and `_is_valid` is false, yet every field
whose cleaning succeeded has already had its cleaned value set as an
instance attribute by `_replace_fields`; and no name appears in both the
error map and the cleaned-data map. -/
theorem C10_cleaning_not_atomic (h : Handler)
    (hnd : (h.fields.map Prod.fst).Nodup) (name0 : String) (field0 : Field)
    (e0 : List String) (hmem0 : (name0, field0) ∈ h.fields)
    (hfail : clean field0 (_get_raw_value h name0) = Except.error e0) :
    (_full_clean h).cleanedData = Option.none ∧
    _is_valid h = false ∧
    (∀ name v, (_clean_fields h).cleanedData.lookup name = some v →
      (_full_clean h).attrs.lookup name = some v) ∧
    (∀ name field v, (name, field) ∈ h.fields →
      clean field (_get_raw_value h name) = Except.ok v →
      h.hooks.lookup name = Option.none →
      (_full_clean h).attrs.lookup name = some v) ∧
    (∀ name, ((_clean_fields h).errors.lookup name).isSome →
      (_clean_fields h).cleanedData.lookup name = Option.none) := by
  have herr := (clean_fields_lookup h hnd name0 field0 hmem0).1 e0 hfail
  have hne : ¬(_clean_fields h).errors = [] := by
    intro hc
    rw [hc] at herr
    simp [List.lookup] at herr
  refine ⟨?_, ?_, ?_, ?_, ?_⟩
  · show (if (_clean_fields h).errors = [] then
        some (_clean_fields h).cleanedData else Option.none) = Option.none
    exact if_neg hne
  · show decide ((_full_clean h).errors = []) = false
    exact decide_eq_false hne
  · intro name v hc
    have h2 : (_full_clean h).attrs = (_clean_fields h).cleanedData := rfl
    rw [h2]
    exact hc
  · intro name field v hm2 hok hh
    have h1 := (clean_fields_lookup h hnd name field hm2).2 v hok hh
    have h2 : (_full_clean h).attrs = (_clean_fields h).cleanedData := rfl
    rw [h2]
    exact h1.1
  · intro name hs
    exact clean_fields_disjoint h hnd name hs

/-- Witness for C10: on the handler where `age` fails and `name` succeeds,
`_cleaned_data` is gone and validity is false, yet the `name` attribute
holds the cleaned `"bob"`. -/
theorem C10_cleaning_not_atomic_witness :
    (_full_clean mixedHandler).cleanedData = Option.none ∧
    _is_valid mixedHandler = false ∧
    (_full_clean mixedHandler).attrs.lookup "name" = some (Val.str "bob") := by
  have h := C10_cleaning_not_atomic mixedHandler (by decide) "age"
    (IntegerField_init Option.none Option.none Val.none true [])
    ["Enter a whole number."] (List.Mem.head _) rfl
  exact ⟨h.1, h.2.1,
    h.2.2.2.1 "name" (CharField_init Option.none Option.none Val.none true [])
      (Val.str "bob") (List.Mem.tail _ (List.Mem.head _)) rfl rfl⟩

/-! ## C4: verb-result handling -/

/-- C4 (code bug in the serialization clause): on a resource that passes
every pipeline check, a verb returning `None` yields the 204 no-content
response and a verb returning a built `HttpResponse` is passed through
unchanged, and a native structure is serialized in the negotiated format
with the matching content type — but when the negotiated format is the
JSONP one (`callback` parameter present), `_serialize` hits the unbound
global `is_valid_jsonp_callback_value` and the resulting `NameError`
escapes the view instead of a serialized response being returned. -/
theorem C4_verb_result_handling :
    wrap_view { stdRes with verbs := [("get", fun _ => Except.ok VerbRet.vNone)] }
        getReq = some HttpNoContent ∧
    wrap_view
        { stdRes with
          verbs := [("get", fun _ => Except.ok (VerbRet.vResp (HttpResponse "built")))] }
        getReq = some (HttpResponse "built") ∧
    wrap_view stdRes getReq =
      some { status := 200, content := "SERIALIZED",
             headers := [("Content-Type", "application/json; charset=utf-8")] } ∧
    _determine_format stdRes callbackReq = "text/javascript" ∧
    (_dispatch stdRes callbackReq).2 =
      Except.error (PyExc.nameError "is_valid_jsonp_callback_value") ∧
    wrap_view stdRes callbackReq = Option.none :=
  ⟨rfl, rfl, rfl, rfl, rfl, rfl⟩

/-! ## C6: JSONP callback validation -/

/-- C6 (code bug): `handler.py` uses `is_valid_jsonp_callback_value`
without defining or importing it at module level, so a request whose
negotiated format is `text/javascript` — here one with the invalid
callback name `alert(1)` — raises `NameError` before any callback
validation can run, and the exception escapes the view (the 500 handler
re-serializes in the same JSONP format and raises again); no bad-request
response is produced. -/
theorem C6_jsonp_callback_rejected :
    is_valid_jsonp_callback_value "alert(1)" = false ∧
    "is_valid_jsonp_callback_value" ∉ handlerModuleGlobals ∧
    _determine_format stdRes badCallbackReq = "text/javascript" ∧
    _serialize stdRes badCallbackReq (Val.str "payload") "text/javascript" =
      Except.error (PyExc.nameError "is_valid_jsonp_callback_value") ∧
    wrap_view stdRes badCallbackReq = Option.none ∧
    wrap_view stdRes badCallbackReq ≠
      some (HttpBadRequest "JSONP callback name is invalid.") := by
  refine ⟨by decide, by decide, rfl, rfl, rfl, by decide⟩

/-! ## C1: pipeline order and immediate short-circuit -/

/-- C1: the stages `_dispatch` enters always form a prefix of the fixed
order method-check, authentication, authorization, throttle, validation,
verb invocation, serialization; and whenever a stage raises
`ImmediateHttpResponse`, the carried response is what the wrapped view
returns and no later stage is entered (the trace stops at the raising
stage). -/
theorem C1_dispatch_pipeline :
    (∀ res req, ∃ k, (_dispatch res req).1 = stageOrder.take k) ∧
    (∀ res req r,
      _method_check res.meta.allowed_methods req =
        Except.error (PyExc.immediate r) →
      _dispatch res req = ([Stage.mcheck], Except.error (PyExc.immediate r)) ∧
      wrap_view res req = some r) ∧
    (∀ res req m r,
      _method_check res.meta.allowed_methods req = Except.ok m →
      hookCheck (res.meta.authenticate req) =
        Except.error (PyExc.immediate r) →
      _dispatch res req =
        ([Stage.mcheck, Stage.auth], Except.error (PyExc.immediate r)) ∧
      wrap_view res req = some r) ∧
    (∀ res req m r,
      _method_check res.meta.allowed_methods req = Except.ok m →
      hookCheck (res.meta.authenticate req) = Except.ok () →
      hookCheck (res.meta.authorize req) =
        Except.error (PyExc.immediate r) →
      _dispatch res req =
        ([Stage.mcheck, Stage.auth, Stage.authz],
         Except.error (PyExc.immediate r)) ∧
      wrap_view res req = some r) ∧
    (∀ res req m,
      _method_check res.meta.allowed_methods req = Except.ok m →
      hookCheck (res.meta.authenticate req) = Except.ok () →
      hookCheck (res.meta.authorize req) = Except.ok () →
      res.meta.should_be_throttled req = true →
      _dispatch res req =
        ([Stage.mcheck, Stage.auth, Stage.authz, Stage.throttle],
         Except.error (PyExc.immediate HttpTooManyRequests)) ∧
      wrap_view res req = some HttpTooManyRequests) ∧
    (∀ res req m f r,
      _method_check res.meta.allowed_methods req = Except.ok m →
      hookCheck (res.meta.authenticate req) = Except.ok () →
      hookCheck (res.meta.authorize req) = Except.ok () →
      res.meta.should_be_throttled req = false →
      _is_valid res.handler = true →
      getVerb res m = some f →
      f req = Except.error (PyExc.immediate r) →
      _dispatch res req =
        ([Stage.mcheck, Stage.auth, Stage.authz, Stage.throttle,
          Stage.validate, Stage.invoke],
         Except.error (PyExc.immediate r)) ∧
      wrap_view res req = some r) := by
  refine ⟨?_, ?_, ?_, ?_, ?_, ?_⟩
  · intro res req
    unfold _dispatch
    dsimp only
    repeat' split
    all_goals first
      | exact ⟨1, rfl⟩ | exact ⟨2, rfl⟩ | exact ⟨3, rfl⟩ | exact ⟨4, rfl⟩
      | exact ⟨5, rfl⟩ | exact ⟨6, rfl⟩ | exact ⟨7, rfl⟩
  · intro res req r hm
    have hd : _dispatch res req =
        ([Stage.mcheck], Except.error (PyExc.immediate r)) := by
      simp [_dispatch, hm]
    exact ⟨hd, by simp [wrap_view, hd]⟩
  · intro res req m r hm ha
    have hd : _dispatch res req =
        ([Stage.mcheck, Stage.auth], Except.error (PyExc.immediate r)) := by
      simp [_dispatch, hm, ha]
    exact ⟨hd, by simp [wrap_view, hd]⟩
  · intro res req m r hm ha hz
    have hd : _dispatch res req =
        ([Stage.mcheck, Stage.auth, Stage.authz],
         Except.error (PyExc.immediate r)) := by
      simp [_dispatch, hm, ha, hz]
    exact ⟨hd, by simp [wrap_view, hd]⟩
  · intro res req m hm ha hz ht
    have hd : _dispatch res req =
        ([Stage.mcheck, Stage.auth, Stage.authz, Stage.throttle],
         Except.error (PyExc.immediate HttpTooManyRequests)) := by
      simp [_dispatch, hm, ha, hz, ht]
    exact ⟨hd, by simp [wrap_view, hd]⟩
  · intro res req m f r hm ha hz ht hv hverb hf
    have hd : _dispatch res req =
        ([Stage.mcheck, Stage.auth, Stage.authz, Stage.throttle,
          Stage.validate, Stage.invoke],
         Except.error (PyExc.immediate r)) := by
      simp [_dispatch, hm, ha, hz, ht, hv, hverb, hf, stageOrder]
    exact ⟨hd, by simp [wrap_view, hd]⟩

/-- Witness for C1: each short-circuit case evaluated on a concrete
resource — a 405 method check, a failing authenticator, an authorizer
returning a custom response, a firing throttle, and the default `get`
verb raising an immediate 405. -/
theorem C1_dispatch_pipeline_witness :
    wrap_view getOnlyRes delReq =
      some (setHeader (HttpMethodNotAllowed "GET") "Allow" "GET") ∧
    wrap_view denyAuthRes getReq = some HttpUnauthorized ∧
    (_dispatch denyAuthRes getReq).1 = [Stage.mcheck, Stage.auth] ∧
    wrap_view denyAuthzRes getReq = some (HttpResponse "forbidden") ∧
    wrap_view throttledRes getReq = some HttpTooManyRequests ∧
    (_dispatch throttledRes getReq).1 =
      [Stage.mcheck, Stage.auth, Stage.authz, Stage.throttle] ∧
    wrap_view noVerbRes getReq = some (HttpMethodNotAllowed "") := by
  have h1 := C1_dispatch_pipeline.2.1 getOnlyRes delReq
    (setHeader (HttpMethodNotAllowed "GET") "Allow" "GET") rfl
  have h2 := C1_dispatch_pipeline.2.2.1 denyAuthRes getReq "get"
    HttpUnauthorized rfl rfl
  have h3 := C1_dispatch_pipeline.2.2.2.1 denyAuthzRes getReq "get"
    (HttpResponse "forbidden") rfl rfl rfl
  have h4 := C1_dispatch_pipeline.2.2.2.2.1 throttledRes getReq "get"
    rfl rfl rfl rfl
  have h5 := C1_dispatch_pipeline.2.2.2.2.2 noVerbRes getReq "get"
    (fun _ => Except.error (PyExc.immediate (HttpMethodNotAllowed "")))
    (HttpMethodNotAllowed "") rfl rfl rfl rfl rfl rfl rfl
  exact ⟨h1.2, h2.2, by rw [h2.1], h3.2, h4.2, by rw [h4.1], h5.2⟩

/-! ## Heap lemmas for the deep-copy invariant -/

theorem nbeq_false_of_ne {a b : Nat} (h : ¬a = b) : (a == b) = false := by
  simp [h]

theorem nlookup_mem {β : Type} {m : List (Nat × β)} {k : Nat} {v : β}
    (h : m.lookup k = some v) : k ∈ m.map Prod.fst := by
  induction m with
  | nil => simp [List.lookup] at h
  | cons p m ih =>
      rcases p with ⟨a, b⟩
      by_cases hk : k = a
      · subst hk; simp
      · have hk2 : (k == a) = false := nbeq_false_of_ne hk
        simp only [List.lookup, hk2] at h
        simp [ih h]

theorem nlookup_append_left {β : Type} {m : List (Nat × β)} {k : Nat}
    {v : β} (h : m.lookup k = some v) (m2 : List (Nat × β)) :
    (m ++ m2).lookup k = some v := by
  induction m with
  | nil => simp [List.lookup] at h
  | cons p m ih =>
      rcases p with ⟨a, b⟩
      by_cases hk : k = a
      · subst hk
        simpa [List.lookup] using h
      · have hk2 : (k == a) = false := nbeq_false_of_ne hk
        simp only [List.lookup, List.cons_append, hk2] at h ⊢
        exact ih h

theorem nlookup_append_right {β : Type} {m : List (Nat × β)} {k : Nat}
    (h : m.lookup k = Option.none) (m2 : List (Nat × β)) :
    (m ++ m2).lookup k = m2.lookup k := by
  induction m with
  | nil => simp
  | cons p m ih =>
      rcases p with ⟨a, b⟩
      by_cases hk : k = a
      · subst hk
        simp [List.lookup] at h
      · have hk2 : (k == a) = false := nbeq_false_of_ne hk
        simp only [List.lookup, List.cons_append, hk2] at h ⊢
        exact ih h

theorem nlookup_none_of_keys_lt {β : Type} {m : List (Nat × β)} {n k : Nat}
    (hk : ∀ p ∈ m, p.1 < n) (hn : n ≤ k) : m.lookup k = Option.none := by
  induction m with
  | nil => rfl
  | cons p m ih =>
      rcases p with ⟨a, b⟩
      have ha : a < n := hk (a, b) (List.mem_cons_self _ _)
      have hne : ¬k = a := by omega
      have hk2 : (k == a) = false := nbeq_false_of_ne hne
      simp only [List.lookup, hk2]
      exact ih (fun q hq => hk q (List.mem_cons_of_mem _ hq))

theorem nlookup_overwrite_isSome {β : Type} {m : List (Nat × β)} {k : Nat}
    (v : β) (h : (m.lookup k).isSome) :
    ((m.map (fun p => if p.1 = k then (k, v) else p)).lookup k) = some v := by
  induction m with
  | nil => simp [List.lookup] at h
  | cons p m ih =>
      rcases p with ⟨a, b⟩
      simp only [List.map_cons]
      by_cases hk : a = k
      · subst hk
        have hx : (if ((a, b) : Nat × β).1 = a then (a, v) else (a, b)) = (a, v) :=
          if_pos rfl
        rw [hx]
        simp [List.lookup]
      · have hx : (if ((a, b) : Nat × β).1 = k then (k, v) else (a, b)) = (a, b) :=
          if_neg hk
        rw [hx]
        have hk2 : (k == a) = false := nbeq_false_of_ne (fun hc => hk hc.symm)
        simp only [List.lookup, hk2] at h ⊢
        exact ih h

theorem nlookup_overwrite_ne {β : Type} (m : List (Nat × β)) (k k' : Nat)
    (v : β) (h : k' ≠ k) :
    ((m.map (fun p => if p.1 = k then (k, v) else p)).lookup k') =
      m.lookup k' := by
  induction m with
  | nil => simp
  | cons p m ih =>
      rcases p with ⟨a, b⟩
      simp only [List.map_cons]
      by_cases ha : a = k
      · subst ha
        have hx : (if ((a, b) : Nat × β).1 = a then (a, v) else (a, b)) = (a, v) :=
          if_pos rfl
        rw [hx]
        have hk2 : (k' == a) = false := nbeq_false_of_ne h
        simp [List.lookup, hk2, ih]
      · have hx : (if ((a, b) : Nat × β).1 = k then (k, v) else (a, b)) = (a, b) :=
          if_neg ha
        rw [hx]
        simp [List.lookup, ih]

theorem wf_lt_of_lookupField {h : Heap} (hwf : h.wf) {a : Addr}
    {o : FieldObj} (hl : lookupField h a = some o) : a < h.nextAddr := by
  rcases List.mem_map.1 (nlookup_mem hl) with ⟨p, hp, hpe⟩
  exact hpe ▸ hwf.1 p hp

theorem wf_lt_of_lookupList {h : Heap} (hwf : h.wf) {a : Addr}
    {xs : List Validator} (hl : lookupList h a = some xs) :
    a < h.nextAddr := by
  rcases List.mem_map.1 (nlookup_mem hl) with ⟨p, hp, hpe⟩
  exact hpe ▸ hwf.2 p hp

/-- `BaseField.__deepcopy__` unfolded on an allocated address. -/
theorem deepcopyField_eq (h : Heap) (a : Addr) (obj : FieldObj)
    (hf : lookupField h a = some obj) :
    deepcopyField h a =
      ({ fieldObjs :=
           (h.fieldObjs ++ [(h.nextAddr, obj)]).map
             (fun p => if p.1 = h.nextAddr then
               (h.nextAddr, { obj with validatorsRef := h.nextAddr + 1 })
             else p),
         listObjs := h.listObjs ++
           [(h.nextAddr + 1, (lookupList h obj.validatorsRef).getD [])],
         nextAddr := h.nextAddr + 2 },
       h.nextAddr) := by
  unfold deepcopyField
  rw [hf]
  rfl

theorem deepcopyField_facts (h : Heap) (a : Addr) (hwf : h.wf) :
    (deepcopyField h a).1.wf ∧
    h.nextAddr ≤ (deepcopyField h a).1.nextAddr ∧
    (∀ a0 o0, lookupField h a0 = some o0 →
      lookupField (deepcopyField h a).1 a0 = some o0) ∧
    (∀ l0 xs0, lookupList h l0 = some xs0 →
      lookupList (deepcopyField h a).1 l0 = some xs0) ∧
    ((lookupField h a).isSome → (deepcopyField h a).2 = h.nextAddr) := by
  cases hf : lookupField h a with
  | none =>
      unfold deepcopyField
      rw [hf]
      exact ⟨hwf, Nat.le_refl _, fun _ _ hx => hx, fun _ _ hx => hx,
        by intro hc; simp at hc⟩
  | some obj =>
      rw [deepcopyField_eq h a obj hf]
      dsimp only [Heap.wf, lookupField, lookupList]
      refine ⟨⟨?_, ?_⟩, ?_, ?_, ?_, fun _ => rfl⟩
      · intro p hp
        rcases List.mem_map.1 hp with ⟨q, hq, hqe⟩
        have hq1 : q.1 < h.nextAddr + 2 := by
          rcases List.mem_append.1 hq with hq2 | hq2
          · exact Nat.lt_succ_of_lt (Nat.lt_succ_of_lt (hwf.1 q hq2))
          · simp only [List.mem_singleton] at hq2
            rw [hq2]
            exact Nat.lt_succ_of_lt (Nat.lt_succ_self _)
        subst hqe
        by_cases hqn : q.1 = h.nextAddr
        · simp only [hqn, if_pos rfl]
          exact Nat.lt_succ_of_lt (Nat.lt_succ_self _)
        · simp only [if_neg hqn]
          exact hq1
      · intro p hp
        rcases List.mem_append.1 hp with hp2 | hp2
        · exact Nat.lt_succ_of_lt (Nat.lt_succ_of_lt (hwf.2 p hp2))
        · simp only [List.mem_singleton] at hp2
          rw [hp2]
          exact Nat.succ_lt_succ (Nat.lt_succ_self _)
      · exact Nat.le_add_right _ 2
      · intro a0 o0 h0
        have ha0 : a0 ≠ h.nextAddr :=
          Nat.ne_of_lt (wf_lt_of_lookupField hwf h0)
        rw [nlookup_overwrite_ne _ _ _ _ ha0]
        exact nlookup_append_left h0 _
      · intro l0 xs0 h0
        exact nlookup_append_left h0 _

/-- `copy.deepcopy(self.base_fields)` (the fold in `deepcopyFields`),
generalized over the accumulator. -/
theorem deepcopyFields_aux (fs : List (String × Addr)) :
    ∀ (h : Heap) (acc : List (String × Addr)), h.wf →
      (fs.foldl
        (fun acc p =>
          let r := deepcopyField acc.1 p.2
          (r.1, acc.2 ++ [(p.1, r.2)])) (h, acc)).1.wf ∧
      h.nextAddr ≤
        (fs.foldl
          (fun acc p =>
            let r := deepcopyField acc.1 p.2
            (r.1, acc.2 ++ [(p.1, r.2)])) (h, acc)).1.nextAddr ∧
      (∀ a0 o0, lookupField h a0 = some o0 →
        lookupField
          (fs.foldl
            (fun acc p =>
              let r := deepcopyField acc.1 p.2
              (r.1, acc.2 ++ [(p.1, r.2)])) (h, acc)).1 a0 = some o0) ∧
      (∀ l0 xs0, lookupList h l0 = some xs0 →
        lookupList
          (fs.foldl
            (fun acc p =>
              let r := deepcopyField acc.1 p.2
              (r.1, acc.2 ++ [(p.1, r.2)])) (h, acc)).1 l0 = some xs0) ∧
      ((fs.foldl
          (fun acc p =>
            let r := deepcopyField acc.1 p.2
            (r.1, acc.2 ++ [(p.1, r.2)])) (h, acc)).2.map Prod.fst =
        acc.map Prod.fst ++ fs.map Prod.fst) ∧
      ((∀ p ∈ fs, (lookupField h p.2).isSome) →
        ∀ q ∈ (fs.foldl
          (fun acc p =>
            let r := deepcopyField acc.1 p.2
            (r.1, acc.2 ++ [(p.1, r.2)])) (h, acc)).2,
          q ∈ acc ∨ h.nextAddr ≤ q.2) := by
  induction fs with
  | nil =>
      intro h acc hwf
      exact ⟨hwf, Nat.le_refl _, fun _ _ hx => hx, fun _ _ hx => hx,
        by simp, fun _ q hq => Or.inl hq⟩
  | cons p fs ih =>
      intro h acc hwf
      obtain ⟨hwf2, hle2, hpf2, hpl2, hsome2⟩ :=
        deepcopyField_facts h p.2 hwf
      obtain ⟨iwf, ile, ipf, ipl, inames, ifresh⟩ :=
        ih (deepcopyField h p.2).1 (acc ++ [(p.1, (deepcopyField h p.2).2)])
          hwf2
      simp only [List.foldl_cons]
      refine ⟨iwf, Nat.le_trans hle2 ile,
        fun a0 o0 h0 => ipf a0 o0 (hpf2 a0 o0 h0),
        fun l0 xs0 h0 => ipl l0 xs0 (hpl2 l0 xs0 h0), ?_, ?_⟩
      · rw [inames]
        simp
      · intro hall q hq
        have hps := hall p (List.mem_cons_self _ _)
        have htail : ∀ r ∈ fs, (lookupField (deepcopyField h p.2).1 r.2).isSome := by
          intro r hr
          have := hall r (List.mem_cons_of_mem _ hr)
          cases hx : lookupField h r.2 with
          | none => rw [hx] at this; simp at this
          | some o0 => rw [hpf2 r.2 o0 hx]; rfl
        rcases ifresh htail q hq with hq2 | hq2
        · rcases List.mem_append.1 hq2 with hq3 | hq3
          · exact Or.inl hq3
          · simp only [List.mem_singleton] at hq3
            right
            rw [hq3]
            dsimp only
            rw [hsome2 hps]
        · exact Or.inr (Nat.le_trans hle2 hq2)

/-! ## C9: per-instance deep copy of the class-level field set -/

/-- C9: `BaseHandler.__init__` works on `copy.deepcopy(self.base_fields)`,
each field copied through `BaseField.__deepcopy__`: the copy is a fresh
object (an address distinct from every allocated field object) carrying a
fresh validator list with the same contents, and reads back as the same
`Field`; copying all base fields leaves every class-level field object and
validator list unchanged with the field names preserved, every per-instance
object sits at a fresh address, and mutating an object at one address
leaves the objects at all other addresses unchanged — so per-request
operations on the instance's fields cannot mutate the class-level field
objects. -/
theorem C9_handler_fields_isolated (h : Heap) (hwf : h.wf) :
    (∀ a obj xs, lookupField h a = some obj →
      lookupList h obj.validatorsRef = some xs →
      (deepcopyField h a).2 ≠ a ∧
      (∀ p ∈ h.fieldObjs, p.1 ≠ (deepcopyField h a).2) ∧
      lookupField (deepcopyField h a).1 (deepcopyField h a).2 =
        some { obj with validatorsRef := h.nextAddr + 1 } ∧
      (∀ p ∈ h.listObjs, p.1 ≠ h.nextAddr + 1) ∧
      lookupList (deepcopyField h a).1 (h.nextAddr + 1) = some xs ∧
      fieldOfObj (deepcopyField h a).1
        { obj with validatorsRef := h.nextAddr + 1 } = fieldOfObj h obj) ∧
    (∀ fs a0 o0, lookupField h a0 = some o0 →
      lookupField (deepcopyFields h fs).1 a0 = some o0) ∧
    (∀ fs l0 xs0, lookupList h l0 = some xs0 →
      lookupList (deepcopyFields h fs).1 l0 = some xs0) ∧
    (∀ fs, (deepcopyFields h fs).2.map Prod.fst = fs.map Prod.fst) ∧
    (∀ fs, (∀ p ∈ fs, (lookupField h p.2).isSome) →
      ∀ q ∈ (deepcopyFields h fs).2, ∀ p ∈ h.fieldObjs, p.1 ≠ q.2) ∧
    (∀ b o2 a0 o0, a0 ≠ b → lookupField h a0 = some o0 →
      lookupField (setFieldObj h b o2) a0 = some o0) ∧
    (∀ b xs2 l0 xs0, l0 ≠ b → lookupList h l0 = some xs0 →
      lookupList (setListObj h b xs2) l0 = some xs0) := by
  refine ⟨?_, ?_, ?_, ?_, ?_, ?_, ?_⟩
  · intro a obj xs hf hl
    have hlt := wf_lt_of_lookupField hwf hf
    have hnone : h.fieldObjs.lookup h.nextAddr = Option.none :=
      nlookup_none_of_keys_lt hwf.1 (Nat.le_refl _)
    have hlnone : h.listObjs.lookup (h.nextAddr + 1) = Option.none :=
      nlookup_none_of_keys_lt hwf.2 (Nat.le_succ _)
    have hsome : ((h.fieldObjs ++ [(h.nextAddr, obj)]).lookup h.nextAddr).isSome := by
      rw [nlookup_append_right hnone]
      simp [List.lookup]
    have hl2 : List.lookup obj.validatorsRef h.listObjs = some xs := hl
    have hbig : (h.listObjs ++
        [(h.nextAddr + 1,
          (List.lookup obj.validatorsRef h.listObjs).getD [])]).lookup
        (h.nextAddr + 1) = some xs := by
      rw [nlookup_append_right hlnone, hl2]
      simp [List.lookup]
    rw [deepcopyField_eq h a obj hf]
    dsimp only [lookupField, lookupList]
    refine ⟨Nat.ne_of_gt hlt, ?_, ?_, ?_, ?_, ?_⟩
    · intro p hp
      exact Nat.ne_of_lt (hwf.1 p hp)
    · exact nlookup_overwrite_isSome _ hsome
    · intro p hp
      exact Nat.ne_of_lt (Nat.lt_succ_of_lt (hwf.2 p hp))
    · exact hbig
    · simp only [fieldOfObj]
      dsimp only [lookupList]
      rw [hbig, hl2]
  · intro fs a0 o0 h0
    exact (deepcopyFields_aux fs h [] hwf).2.2.1 a0 o0 h0
  · intro fs l0 xs0 h0
    exact (deepcopyFields_aux fs h [] hwf).2.2.2.1 l0 xs0 h0
  · intro fs
    have := (deepcopyFields_aux fs h [] hwf).2.2.2.2.1
    simpa using this
  · intro fs hall q hq p hp
    rcases (deepcopyFields_aux fs h [] hwf).2.2.2.2.2 hall q hq with hq2 | hq2
    · simp at hq2
    · exact Nat.ne_of_lt (Nat.lt_of_lt_of_le (hwf.1 p hp) hq2)
  · intro b o2 a0 o0 hne h0
    show ((h.fieldObjs.map _).lookup a0) = some o0
    rw [nlookup_overwrite_ne _ _ _ _ hne]
    exact h0
  · intro b xs2 l0 xs0 hne h0
    show ((h.listObjs.map _).lookup l0) = some xs0
    rw [nlookup_overwrite_ne _ _ _ _ hne]
    exact h0

/-- Witness for C9: the small heap's single field copied for an instance —
fresh addresses 2 and 3, class objects at 0 and 1 unchanged, names kept,
and a mutation at the copy's address leaving the class object intact. -/
theorem C9_handler_fields_isolated_witness :
    (deepcopyField c9Heap 0).2 ≠ 0 ∧
    lookupField (deepcopyField c9Heap 0).1 (deepcopyField c9Heap 0).2 =
      some { c9Obj with validatorsRef := 3 } ∧
    lookupList (deepcopyField c9Heap 0).1 3 = some [] ∧
    lookupField (deepcopyFields c9Heap [("name", 0)]).1 0 = some c9Obj ∧
    lookupList (deepcopyFields c9Heap [("name", 0)]).1 1 = some [] ∧
    (deepcopyFields c9Heap [("name", 0)]).2.map Prod.fst = ["name"] ∧
    lookupField (setFieldObj c9Heap 2 { c9Obj with required := false }) 0 =
      some c9Obj := by
  have hwf : c9Heap.wf := ⟨by decide, by decide⟩
  have h := C9_handler_fields_isolated c9Heap hwf
  have h1 := h.1 0 c9Obj [] rfl rfl
  refine ⟨h1.1, h1.2.2.1, h1.2.2.2.2.1, ?_, ?_, ?_, ?_⟩
  · exact h.2.1 [("name", 0)] 0 c9Obj rfl
  · exact h.2.2.1 [("name", 0)] 1 [] rfl
  · simpa using h.2.2.2.1 [("name", 0)]
  · exact h.2.2.2.2.2.1 2 { c9Obj with required := false } 0 c9Obj
      (by decide) rfl

end Restumize

